import Mathlib

set_option maxHeartbeats 2000000
set_option maxRecDepth 4000

/- Verification of the spreadsheet transformation core of `app.py`
   (hayasep/inboundrecap).  The worksheet, Python cell values and the
   export pipeline are shallowly embedded.  Python floats are modelled
   as exact rationals (all heights and widths the program manipulates
   are exactly representable), Python string floats produced by
   `float(s)` are abstracted by their (stripped) source literal, and
   Python exceptions are modelled with `Except`. -/

/-- A Python value as it can appear in a worksheet cell: `None`, a
string, an int, or a float.  The float constructor records the literal
text the float was parsed from (this embedding never compares or prints
float values, so the IEEE value itself is not needed). -/
inductive PyVal : Type where
  | vNone : PyVal
  | vStr (s : String) : PyVal
  | vInt (n : Int) : PyVal
  | vFloat (lit : String) : PyVal
  deriving DecidableEq, Repr

/-- ASCII model of the whitespace set used by Python `str.strip`. -/
def isPySpace (ch : Char) : Bool := ch.isWhitespace

/-- `str.strip` on a list of characters: drop whitespace on both ends. -/
def pyStripL (l : List Char) : List Char :=
  ((l.dropWhile isPySpace).reverse.dropWhile isPySpace).reverse

/-- Python `s.strip()` (ASCII whitespace). -/
def pyStrip (s : String) : String := String.mk (pyStripL s.data)

/-- Python `s.isdigit()`, restricted to ASCII digits: true iff the
string is nonempty and all characters are decimal digits. -/
def pyIsdigit (s : String) : Bool := !s.data.isEmpty && s.data.all Char.isDigit

/-- Numeric value of an all-digit string, as computed by Python
`int(s)` when `s.isdigit()` holds. -/
def digitsToInt (s : String) : Int :=
  ((s.data.foldl (fun a ch => a * 10 + (ch.toNat - 48)) 0 : Nat) : Int)

/-- Drop one optional leading sign character. -/
def dropSign : List Char → List Char
  | '+' :: t => t
  | '-' :: t => t
  | l => l

/-- Exponent suffix of the Python float literal grammar: empty, or
`e`/`E` (already lower-cased here) followed by an optional sign and a
nonempty digit run. -/
def pyFloatExpOk : List Char → Bool
  | [] => true
  | 'e' :: r =>
      let r' := dropSign r
      !r'.isEmpty && r'.all Char.isDigit
  | _ => false

/-- Mantissa-plus-exponent part of the Python float grammar. -/
def pyFloatNumOk (l : List Char) : Bool :=
  let d1 := l.takeWhile Char.isDigit
  let r1 := l.dropWhile Char.isDigit
  match r1 with
  | '.' :: r2 =>
      let d2 := r2.takeWhile Char.isDigit
      let r3 := r2.dropWhile Char.isDigit
      (!d1.isEmpty || !d2.isEmpty) && pyFloatExpOk r3
  | _ => !d1.isEmpty && pyFloatExpOk r1

/-- Whether Python `float(s)` succeeds on the (already stripped) string
`s`: optional sign, then `inf`, `infinity`, `nan` (case-insensitive) or
a decimal mantissa with optional exponent.  PEP 515 digit-group
underscores are not modelled. -/
def pyFloatOk (s : String) : Bool :=
  let l := (s.data.map Char.toLower)
  let l' := dropSign l
  if l' = "inf".data ∨ l' = "infinity".data ∨ l' = "nan".data then true
  else pyFloatNumOk l'

/-- Python `int(s)` on a string: strip, optional sign, nonempty digit
run (PEP 515 underscores not modelled). -/
def pyIntParse (s0 : String) : Option Int :=
  let l := pyStripL s0.data
  let neg : Bool := match l with | '-' :: _ => true | _ => false
  let l' := dropSign l
  if !l'.isEmpty && l'.all Char.isDigit then
    let v := ((l'.foldl (fun a ch => a * 10 + (ch.toNat - 48)) 0 : Nat) : Int)
    some (if neg then -v else v)
  else none

/-- Python `str(v)` for the cell values the pipeline stores.  For a
float the stored literal is returned; the program only uses `str` on a
value for length estimation and normalized matching, and no claim
depends on float repr normalization. -/
def pyStr : PyVal → String
  | .vNone => "None"
  | .vStr s => s
  | .vInt n => toString n
  | .vFloat lit => lit

/-- `_norm` on a character list: keep alphanumeric characters (ASCII
model of `ch.isalnum()`), lower-case them. -/
def normL (l : List Char) : List Char :=
  (l.filter (fun ch => ch.isAlphanum)).map Char.toLower

/-- `_norm(s)` from `app.py`: lower-case and strip non-alphanumerics. -/
def normStr (s : String) : String := String.mk (normL s.data)

/-- Python `str.splitlines` (newline-only model): note that a trailing
newline does not produce a trailing empty line. -/
def pySplitlinesGo : List Char → List Char → List String
  | [], acc => if acc.isEmpty then [] else [String.mk acc.reverse]
  | '\n' :: rest, acc => String.mk acc.reverse :: pySplitlinesGo rest []
  | ch :: rest, acc => pySplitlinesGo rest (ch :: acc)

/-- Python `s.splitlines()`. -/
def pySplitlines (s : String) : List String := pySplitlinesGo s.data []

/-- Python `round` on an exact rational: round half to even. -/
def pyRound (q : ℚ) : Int :=
  let f := ⌊q⌋
  let r := q - (f : ℚ)
  if r < 1/2 then f
  else if 1/2 < r then f + 1
  else if f % 2 = 0 then f else f + 1

/-- A merged range `(min_row, min_col, max_row, max_col)`, as stored by
`snapshot_merges`. -/
structure MergeRange : Type where
  minRow : Int
  minCol : Int
  maxRow : Int
  maxCol : Int
  deriving DecidableEq, Repr

/-- openpyxl cell alignment (source class `Alignment`); only the
attributes the program writes are modelled (`None` horizontal/vertical
and absent wrap are the openpyxl defaults). -/
structure CellAlignment : Type where
  horizontal : Option String := none
  vertical : Option String := none
  wrapText : Bool := false
  deriving DecidableEq, Repr

/-- A worksheet: dimension bounds (`ws.max_row`, `ws.max_column`),
per-cell values, alignments and font colors, the merged ranges, row
heights (`ws.row_dimensions[r].height`), the sheet-format default row
height, explicit column widths and the sheet-format default column
width (taken as 8.43 when the workbook does not set one, matching the
`getattr(..., 8.43)` fallback in `_col_char_width`). -/
structure Sheet : Type where
  maxRow : Nat
  maxCol : Nat
  cellVal : Int → Int → PyVal
  cellAlign : Int → Int → CellAlignment
  cellFontColor : Int → Int → Option String
  merges : List MergeRange
  rowHeight : Int → Option ℚ
  defaultRowHeight : Option ℚ
  colWidth : Int → Option ℚ
  defaultColWidth : ℚ

/-- The 1-based row indices `range(1, ws.max_row + 1)`. -/
def rowsList (ws : Sheet) : List Int :=
  (List.range ws.maxRow).map (fun (i : Nat) => (i : Int) + 1)

/-- The 1-based column indices `range(1, ws.max_column + 1)`. -/
def colsList (ws : Sheet) : List Int :=
  (List.range ws.maxCol).map (fun (i : Nat) => (i : Int) + 1)

/-- Whether `(r, c)` lies inside the merged range `m`. -/
def containsB (m : MergeRange) (r c : Int) : Bool :=
  decide (m.minRow ≤ r ∧ r ≤ m.maxRow ∧ m.minCol ≤ c ∧ c ≤ m.maxCol)

/-- A cell is a `MergedCell` (shadow cell) iff some current merged
range contains it and it is not that range's top-left anchor. -/
def isShadow (ws : Sheet) (r c : Int) : Bool :=
  ws.merges.any (fun m => containsB m r c && !(decide (r = m.minRow ∧ c = m.minCol)))

/-- `ws.cell(row=r, column=c, value=v)`: writes the value and extends
the worksheet dimensions to cover the accessed coordinate. -/
def setCellValue (ws : Sheet) (r c : Int) (v : PyVal) : Sheet :=
  { ws with
    cellVal := fun r' c' => if r' = r ∧ c' = c then v else ws.cellVal r' c'
    maxRow := max ws.maxRow r.toNat
    maxCol := max ws.maxCol c.toNat }

/-- `cell.alignment = a` on an already-created cell (every alignment
assignment in the program targets a cell inside the dimensions). -/
def setCellAlign (ws : Sheet) (r c : Int) (a : CellAlignment) : Sheet :=
  { ws with
    cellAlign := fun r' c' => if r' = r ∧ c' = c then a else ws.cellAlign r' c' }

/-- `ws.row_dimensions[r].height = h`. -/
def setRowHeight (ws : Sheet) (r : Int) (h : ℚ) : Sheet :=
  { ws with rowHeight := fun r' => if r' = r then some h else ws.rowHeight r' }

/-- `ws.merge_cells(...)`: records the range, clears the value of every
non-anchor cell in it (openpyxl replaces them with `MergedCell`s) and
extends the dimensions over the created cells (the program only merges
ranges with `minRow ≤ maxRow` and `minCol ≤ maxCol`). -/
def mergeCellsOp (ws : Sheet) (r1 c1 r2 c2 : Int) : Sheet :=
  { ws with
    merges := ws.merges ++ [⟨r1, c1, r2, c2⟩]
    cellVal := fun r c =>
      if (containsB ⟨r1, c1, r2, c2⟩ r c ∧ ¬(r = r1 ∧ c = c1)) then PyVal.vNone
      else ws.cellVal r c
    maxRow := max ws.maxRow r2.toNat
    maxCol := max ws.maxCol c2.toNat }

/-- `snapshot_merges(ws)`. -/
def snapshot_merges (ws : Sheet) : List MergeRange := ws.merges

/-- `unmerge_all(ws)`: removing a merge turns the shadow cells back
into ordinary empty cells; their values were already `None`. -/
def unmerge_all (ws : Sheet) : Sheet := { ws with merges := [] }

/-- `reapply_merges(ws, merges)`: re-create each range, defensively
skipping inverted ones. -/
def reapply_merges (ws : Sheet) (merges : List MergeRange) : Sheet :=
  merges.foldl
    (fun w m =>
      if m.minRow ≤ m.maxRow ∧ m.minCol ≤ m.maxCol then
        mergeCellsOp w m.minRow m.minCol m.maxRow m.maxCol
      else w)
    ws

/-- `adjust_merges_row_offset(merges, row_offset)`. -/
def adjust_merges_row_offset (merges : List MergeRange) (off : Int) : List MergeRange :=
  if off = 0 then merges
  else merges.map (fun m => { m with minRow := m.minRow + off, maxRow := m.maxRow + off })

/-- `map_to_anchor_with_snapshot(r, c, merges_snapshot)`. -/
def map_to_anchor_with_snapshot (r c : Int) (ms : List MergeRange) : Int × Int :=
  match ms.find? (fun m => containsB m r c) with
  | some m => (m.minRow, m.minCol)
  | none => (r, c)

/-- Two merged ranges occupy disjoint cell sets (interval form); a
worksheet snapshot never contains overlapping merged ranges. -/
def rangesDisjoint (a b : MergeRange) : Prop :=
  a.maxRow < b.minRow ∨ b.maxRow < a.minRow ∨ a.maxCol < b.minCol ∨ b.maxCol < a.minCol

instance (a b : MergeRange) : Decidable (rangesDisjoint a b) := by
  unfold rangesDisjoint; infer_instance

/-- C8: for every list of merge ranges and every integer `k`, shifting
all row bounds by `k` and then by `-k` returns the original list:
`adjust_merges_row_offset (adjust_merges_row_offset ranges k) (-k) = ranges`. -/
theorem adjust_merges_row_offset_roundtrip (ranges : List MergeRange) (k : Int) :
    adjust_merges_row_offset (adjust_merges_row_offset ranges k) (-k) = ranges := by
  rcases eq_or_ne k 0 with hk | hk
  · subst hk
    simp [adjust_merges_row_offset]
  · have hk' : (-k : Int) ≠ 0 := neg_ne_zero.mpr hk
    simp only [adjust_merges_row_offset, if_neg hk, if_neg hk', List.map_map]
    have h : ((fun m : MergeRange => { m with minRow := m.minRow + -k, maxRow := m.maxRow + -k }) ∘
        (fun m : MergeRange => { m with minRow := m.minRow + k, maxRow := m.maxRow + k })) = id := by
      funext m
      rcases m with ⟨a, b, c, d⟩
      simp
    rw [h, List.map_id]

/-- C6: over any snapshot of pairwise-disjoint merged ranges,
`map_to_anchor_with_snapshot` sends every coordinate inside a range `m`
to the top-left corner `(m.minRow, m.minCol)` of that range, and every
coordinate contained in no range to itself. -/
theorem map_to_anchor_with_snapshot_spec (ms : List MergeRange)
    (hdisj : ms.Pairwise rangesDisjoint) :
    (∀ m ∈ ms, ∀ r c : Int, containsB m r c = true →
        map_to_anchor_with_snapshot r c ms = (m.minRow, m.minCol)) ∧
    (∀ r c : Int, (∀ m ∈ ms, containsB m r c = false) →
        map_to_anchor_with_snapshot r c ms = (r, c)) := by
  constructor
  · intro m hm r c hin
    induction ms with
    | nil => cases hm
    | cons a t ih =>
      rcases List.mem_cons.mp hm with h | h
      · subst h
        have h1 : List.find? (fun m' => containsB m' r c) (m :: t) = some m :=
          List.find?_cons_of_pos t hin
        unfold map_to_anchor_with_snapshot
        rw [h1]
      · have hdis : rangesDisjoint a m := (List.pairwise_cons.mp hdisj).1 m h
        have hna : containsB a r c = false := by
          simp only [containsB, decide_eq_true_eq] at hin
          simp only [containsB, decide_eq_false_iff_not]
          rcases hdis with hd | hd | hd | hd <;> omega
        have h2 : List.find? (fun m' => containsB m' r c) (a :: t) =
            List.find? (fun m' => containsB m' r c) t :=
          List.find?_cons_of_neg t (by simp [hna])
        have h3 := ih (List.pairwise_cons.mp hdisj).2 h
        unfold map_to_anchor_with_snapshot at h3 ⊢
        rw [h2]
        exact h3
  · intro r c hnone
    unfold map_to_anchor_with_snapshot
    rw [List.find?_eq_none.mpr (fun m hm => by simp [hnone m hm])]

/-- Witness for C6 at a concrete snapshot: the interior coordinate
`(6, 3)` of the second range maps to its anchor `(5, 2)`. -/
theorem map_to_anchor_with_snapshot_spec_witness :
    map_to_anchor_with_snapshot 6 3
      [⟨1, 1, 2, 3⟩, ⟨5, 2, 6, 4⟩] = (5, 2) :=
  (map_to_anchor_with_snapshot_spec [⟨1, 1, 2, 3⟩, ⟨5, 2, 6, 4⟩]
      (by decide)).1 ⟨5, 2, 6, 4⟩ (by decide) 6 3 (by decide)

/-- A worksheet with all cells empty and no metadata, used to build
concrete test sheets. -/
def blankSheet (nr nc : Nat) : Sheet :=
  { maxRow := nr
    maxCol := nc
    cellVal := fun _ _ => PyVal.vNone
    cellAlign := fun _ _ => {}
    cellFontColor := fun _ _ => none
    merges := []
    rowHeight := fun _ => none
    defaultRowHeight := none
    colWidth := fun _ => none
    defaultColWidth := 8.43 }

/-- The body of the scan loops in `find_keynotes_row`: skip a `None`
value, otherwise compare the normalized text with the normalized form
of "Key Notes/Follow Up". -/
def keynotesCellB (v : PyVal) : Bool :=
  match v with
  | .vNone => false
  | v => normStr (pyStr v) == normStr "Key Notes/Follow Up"

/-- Whether row `r` contains a cell matching the Key Notes header. -/
def keynotesRowPred (ws : Sheet) (r : Int) : Bool :=
  (colsList ws).any (fun c => keynotesCellB (ws.cellVal r c))

/-- `find_keynotes_row(ws, fallback)`: row-major scan for the first
cell whose normalized text equals the normalized header. -/
def find_keynotes_row (ws : Sheet) (fallback : Int) : Int :=
  match (rowsList ws).find? (fun r => keynotesRowPred ws r) with
  | some r => r
  | none => fallback

/-- Cell test of `find_upstairs_row`. -/
def upstairsCellB (v : PyVal) : Bool :=
  match v with
  | .vNone => false
  | v => normStr (pyStr v) == normStr "Upstairs"

/-- `find_upstairs_row(ws)`: like the Key Notes scan but for
"Upstairs", returning `none` when absent. -/
def find_upstairs_row (ws : Sheet) : Option Int :=
  (rowsList ws).find? (fun r => (colsList ws).any (fun c => upstairsCellB (ws.cellVal r c)))

/-- The propositional form of a Key Notes header match at `(r, c)`. -/
def matchesAt (ws : Sheet) (r c : Int) : Prop :=
  ws.cellVal r c ≠ PyVal.vNone ∧
    normStr (pyStr (ws.cellVal r c)) = normStr "Key Notes/Follow Up"

instance (ws : Sheet) (r c : Int) : Decidable (matchesAt ws r c) := by
  unfold matchesAt; infer_instance

theorem keynotesCellB_iff (v : PyVal) :
    keynotesCellB v = true ↔
      (v ≠ PyVal.vNone ∧ normStr (pyStr v) = normStr "Key Notes/Follow Up") := by
  cases v <;> simp [keynotesCellB]

theorem keynotesRowPred_iff (ws : Sheet) (r : Int) :
    keynotesRowPred ws r = true ↔ ∃ c ∈ colsList ws, matchesAt ws r c := by
  unfold keynotesRowPred
  rw [List.any_eq_true]
  constructor
  · rintro ⟨c, hc, hb⟩
    exact ⟨c, hc, (keynotesCellB_iff _).mp hb⟩
  · rintro ⟨c, hc, hm⟩
    exact ⟨c, hc, (keynotesCellB_iff _).mpr hm⟩

theorem mem_rowsList (ws : Sheet) (r : Int) :
    r ∈ rowsList ws ↔ 1 ≤ r ∧ r ≤ (ws.maxRow : Int) := by
  unfold rowsList
  constructor
  · intro h
    obtain ⟨i, hi, hr⟩ := List.mem_map.mp h
    rw [List.mem_range] at hi
    change (i : Int) + 1 = r at hr
    omega
  · rintro ⟨h1, h2⟩
    refine List.mem_map.mpr ⟨(r - 1).toNat, List.mem_range.mpr (by omega), ?_⟩
    change (((r - 1).toNat : Nat) : Int) + 1 = r
    omega

theorem mem_colsList (ws : Sheet) (c : Int) :
    c ∈ colsList ws ↔ 1 ≤ c ∧ c ≤ (ws.maxCol : Int) := by
  unfold colsList
  constructor
  · intro h
    obtain ⟨i, hi, hc⟩ := List.mem_map.mp h
    rw [List.mem_range] at hi
    change (i : Int) + 1 = c at hc
    omega
  · rintro ⟨h1, h2⟩
    refine List.mem_map.mpr ⟨(c - 1).toNat, List.mem_range.mpr (by omega), ?_⟩
    change (((c - 1).toNat : Nat) : Int) + 1 = c
    omega

theorem rowsList_pairwise (ws : Sheet) : (rowsList ws).Pairwise (· < ·) := by
  unfold rowsList
  refine List.Pairwise.map _ (fun a b h => ?_) (List.pairwise_lt_range ws.maxRow)
  change (a : Int) + 1 < (b : Int) + 1
  omega

/-- On a strictly increasing list, `find?` returns the unique element
that satisfies the predicate while everything smaller fails it. -/
theorem find?_eq_some_of_first (l : List Int) (p : Int → Bool) (r : Int)
    (hsorted : l.Pairwise (· < ·)) (hr : r ∈ l) (hp : p r = true)
    (hmin : ∀ x ∈ l, x < r → p x = false) : l.find? p = some r := by
  induction l with
  | nil => cases hr
  | cons a t ih =>
    rcases List.mem_cons.mp hr with h | h
    · subst h
      exact List.find?_cons_of_pos t hp
    · have halt : a < r := (List.pairwise_cons.mp hsorted).1 r h
      have hpa : p a = false := hmin a (List.mem_cons_self a t) halt
      rw [List.find?_cons_of_neg t (by simp [hpa])]
      exact ih (List.pairwise_cons.mp hsorted).2 h
        (fun x hx hxr => hmin x (List.mem_cons_of_mem a hx) hxr)

/-- C4: `find_keynotes_row` scans all cells in row-major order and
returns the row of the first cell whose text, lower-cased and stripped
of non-alphanumerics, equals the normalized form of
"Key Notes/Follow Up"; when a row `r` holds a match and every earlier
row holds none, the result is `r`, and when no cell matches the result
is the fallback (41). -/
theorem find_keynotes_row_spec (ws : Sheet) (fallback r : Int) :
    ((r ∈ rowsList ws ∧ (∃ c ∈ colsList ws, matchesAt ws r c) ∧
        ∀ x ∈ rowsList ws, x < r → ∀ c ∈ colsList ws, ¬ matchesAt ws x c) →
      find_keynotes_row ws fallback = r) ∧
    ((∀ x ∈ rowsList ws, ∀ c ∈ colsList ws, ¬ matchesAt ws x c) →
      find_keynotes_row ws fallback = fallback) := by
  constructor
  · rintro ⟨hr, hc, hmin⟩
    unfold find_keynotes_row
    rw [find?_eq_some_of_first (rowsList ws) _ r (rowsList_pairwise ws) hr
      ((keynotesRowPred_iff ws r).mpr hc)
      (fun x hx hxr => by
        rw [← Bool.not_eq_true, keynotesRowPred_iff]
        rintro ⟨c, hcc, hm⟩
        exact hmin x hx hxr c hcc hm)]
  · intro hnone
    unfold find_keynotes_row
    rw [List.find?_eq_none.mpr (fun x hx => by
      rw [keynotesRowPred_iff]
      rintro ⟨c, hcc, hm⟩
      exact hnone x hx c hcc hm)]

/-- A sheet with the Key Notes header (in a case and punctuation
variant) at row 20 and unrelated text above. -/
def keynotesDemoSheet : Sheet :=
  { blankSheet 20 2 with
    cellVal := fun r c =>
      if r = 2 ∧ c = 1 then PyVal.vStr "Backstock Report"
      else if r = 20 ∧ c = 1 then PyVal.vStr "KEY NOTES / FOLLOW-UP"
      else PyVal.vNone }

/-- Witness for C4: the variant header "KEY NOTES / FOLLOW-UP" at row
20 is found (yielding 20), and a sheet with no match yields the
fallback 41. -/
theorem find_keynotes_row_spec_witness :
    find_keynotes_row keynotesDemoSheet 41 = 20 ∧
    find_keynotes_row (blankSheet 3 3) 41 = 41 :=
  ⟨(find_keynotes_row_spec keynotesDemoSheet 41 20).1 (by decide),
   (find_keynotes_row_spec (blankSheet 3 3) 41 41).2 (by decide)⟩

/-- Whether a merged range intersects the row band `lower..upper`
(the removal test in `shape_notes_exact`). -/
def overlapsRows (m : MergeRange) (lower upper : Int) : Bool :=
  decide (m.minRow ≤ upper ∧ lower ≤ m.maxRow)

/-- `shape_notes_exact(ws, hdr_row, start_col, end_col)`: unmerge every
range overlapping rows `hdr_row+1 .. hdr_row+6`, then create the 4-row
block and the two single-row blocks.  (The source also returns the
anchor rows `hdr_row+1`, `hdr_row+5`, `hdr_row+6`; callers of this
model recompute them.) -/
def shape_notes_exact (ws : Sheet) (hdr_row start_col end_col : Int) : Sheet :=
  let lower := hdr_row + 1
  let upper := hdr_row + 6
  let ws1 := { ws with merges := ws.merges.filter (fun m => !overlapsRows m lower upper) }
  let ws2 := mergeCellsOp ws1 (hdr_row + 1) start_col (hdr_row + 4) end_col
  let ws3 := mergeCellsOp ws2 (hdr_row + 5) start_col (hdr_row + 5) end_col
  mergeCellsOp ws3 (hdr_row + 6) start_col (hdr_row + 6) end_col

theorem shape_notes_exact_merges_eq (ws : Sheet) (hdr s e : Int) :
    (shape_notes_exact ws hdr s e).merges =
      ws.merges.filter (fun m => !overlapsRows m (hdr + 1) (hdr + 6)) ++
        [⟨hdr + 1, s, hdr + 4, e⟩, ⟨hdr + 5, s, hdr + 5, e⟩, ⟨hdr + 6, s, hdr + 6, e⟩] := by
  simp [shape_notes_exact, mergeCellsOp]

/-- C3: after `shape_notes_exact` with header row `hdr` and columns
1..5, the merged ranges intersecting rows `hdr+1 .. hdr+6` are exactly
the 4-row block and the two single-row blocks, every pre-existing
merge overlapping those rows having been removed. -/
theorem shape_notes_exact_band_merges (ws : Sheet) (hdr : Int) :
    (shape_notes_exact ws hdr 1 5).merges.filter
        (fun m => overlapsRows m (hdr + 1) (hdr + 6)) =
      [⟨hdr + 1, 1, hdr + 4, 5⟩, ⟨hdr + 5, 1, hdr + 5, 5⟩, ⟨hdr + 6, 1, hdr + 6, 5⟩] := by
  rw [shape_notes_exact_merges_eq, List.filter_append]
  have h1 : (ws.merges.filter (fun m => !overlapsRows m (hdr + 1) (hdr + 6))).filter
      (fun m => overlapsRows m (hdr + 1) (hdr + 6)) = [] := by
    refine List.filter_eq_nil_iff.mpr (fun m hm => ?_)
    have := List.of_mem_filter hm
    simp only [Bool.not_eq_true'] at this
    simp [this]
  have hA : overlapsRows ⟨hdr + 1, 1, hdr + 4, 5⟩ (hdr + 1) (hdr + 6) = true := by
    simp only [overlapsRows, decide_eq_true_eq]
    omega
  have hB : overlapsRows ⟨hdr + 5, 1, hdr + 5, 5⟩ (hdr + 1) (hdr + 6) = true := by
    simp only [overlapsRows, decide_eq_true_eq]
    omega
  have hC : overlapsRows ⟨hdr + 6, 1, hdr + 6, 5⟩ (hdr + 1) (hdr + 6) = true := by
    simp only [overlapsRows, decide_eq_true_eq]
    omega
  rw [h1]
  simp [List.filter_cons, hA, hB, hC]

/-- The configuration the export core reads from the environment:
`ALLOW_BLANK_OVERWRITE` and `UNIFORM_ROW_HEIGHT_PX` (the latter is
`none` when the variable is unset or empty). -/
structure Config : Type where
  allowBlankOverwrite : Bool
  uniformRowHeightPx : Option ℚ := none

/-- A decoded edit request `{r, c, v}` after the `int(...)` coercion of
its coordinates. -/
structure Edit : Type where
  r : Int
  c : Int
  v : PyVal

/-- One iteration of the edit loop in `apply_cells_and_export`: skip
non-positive coordinates, resolve the anchor against the original merge
snapshot, coerce a string value (trim; skip or write empty for blanks;
`int` for digit-only, `float` if parseable, else the raw string) and
write to the anchor cell. -/
def applyEdit (cfg : Config) (origMerges : List MergeRange) (ws : Sheet) (e : Edit) : Sheet :=
  if e.r ≤ 0 ∨ e.c ≤ 0 then ws
  else
    let a := map_to_anchor_with_snapshot e.r e.c origMerges
    match e.v with
    | PyVal.vStr s0 =>
        let s := pyStrip s0
        if s = "" then
          if cfg.allowBlankOverwrite then setCellValue ws a.1 a.2 (PyVal.vStr "") else ws
        else if pyIsdigit s then setCellValue ws a.1 a.2 (PyVal.vInt (digitsToInt s))
        else if pyFloatOk s then setCellValue ws a.1 a.2 (PyVal.vFloat s)
        else setCellValue ws a.1 a.2 (PyVal.vStr s0)
    | v => setCellValue ws a.1 a.2 v

/-- The whole edit loop. -/
def applyEdits (cfg : Config) (origMerges : List MergeRange)
    (edits : List Edit) (ws : Sheet) : Sheet :=
  edits.foldl (applyEdit cfg origMerges) ws

/-- C2: for an edit with positive row and column and a string value,
the Cell Writer trims the string and then: skips the edit entirely when
the trimmed string is empty and blank-overwrite is disabled; writes the
empty string when it is empty and blank-overwrite is enabled; writes
the integer value of a digits-only string; writes the float value of a
float-parseable string; and otherwise writes the raw string unchanged —
in each write case at the anchor cell resolved from the merge
snapshot. -/
theorem applyEdit_string_coercion (cfg : Config) (orig : List MergeRange)
    (ws : Sheet) (e : Edit) (s0 : String)
    (hr : 0 < e.r) (hc : 0 < e.c) (hv : e.v = PyVal.vStr s0) :
    (pyStrip s0 = "" ∧ cfg.allowBlankOverwrite = false →
        applyEdit cfg orig ws e = ws) ∧
    (pyStrip s0 = "" ∧ cfg.allowBlankOverwrite = true →
        (applyEdit cfg orig ws e).cellVal
            (map_to_anchor_with_snapshot e.r e.c orig).1
            (map_to_anchor_with_snapshot e.r e.c orig).2 = PyVal.vStr "") ∧
    (pyStrip s0 ≠ "" ∧ pyIsdigit (pyStrip s0) = true →
        (applyEdit cfg orig ws e).cellVal
            (map_to_anchor_with_snapshot e.r e.c orig).1
            (map_to_anchor_with_snapshot e.r e.c orig).2 =
          PyVal.vInt (digitsToInt (pyStrip s0))) ∧
    (pyStrip s0 ≠ "" ∧ pyIsdigit (pyStrip s0) = false ∧ pyFloatOk (pyStrip s0) = true →
        (applyEdit cfg orig ws e).cellVal
            (map_to_anchor_with_snapshot e.r e.c orig).1
            (map_to_anchor_with_snapshot e.r e.c orig).2 =
          PyVal.vFloat (pyStrip s0)) ∧
    (pyStrip s0 ≠ "" ∧ pyIsdigit (pyStrip s0) = false ∧ pyFloatOk (pyStrip s0) = false →
        (applyEdit cfg orig ws e).cellVal
            (map_to_anchor_with_snapshot e.r e.c orig).1
            (map_to_anchor_with_snapshot e.r e.c orig).2 = PyVal.vStr s0) := by
  have hguard : ¬(e.r ≤ 0 ∨ e.c ≤ 0) := by omega
  refine ⟨?_, ?_, ?_, ?_, ?_⟩
  · rintro ⟨h1, h2⟩
    simp [applyEdit, hguard, hv, h1, h2]
  · rintro ⟨h1, h2⟩
    simp [applyEdit, hguard, hv, h1, h2, setCellValue]
  · rintro ⟨h1, h2⟩
    simp [applyEdit, hguard, hv, h1, h2, setCellValue]
  · rintro ⟨h1, h2, h3⟩
    simp [applyEdit, hguard, hv, h1, h2, h3, setCellValue]
  · rintro ⟨h1, h2, h3⟩
    simp [applyEdit, hguard, hv, h1, h2, h3, setCellValue]

/-- Blank-overwrite disabled configuration. -/
def cfgOff : Config := { allowBlankOverwrite := false }

/-- Blank-overwrite enabled configuration. -/
def cfgOn : Config := { allowBlankOverwrite := true }

/-- Witness for C2 at the concrete inputs of the spec: `"12"` at
`(5, 2)` becomes the integer 12 (not the string), a whitespace-only
value is skipped when blank-overwrite is off and stored as the empty
string when it is on. -/
theorem applyEdit_string_coercion_witness :
    (applyEdit cfgOff [] (blankSheet 8 4) ⟨5, 2, PyVal.vStr "12"⟩).cellVal 5 2 =
        PyVal.vInt 12 ∧
    applyEdit cfgOff [] (blankSheet 8 4) ⟨5, 2, PyVal.vStr "   "⟩ = blankSheet 8 4 ∧
    (applyEdit cfgOn [] (blankSheet 8 4) ⟨5, 2, PyVal.vStr "   "⟩).cellVal 5 2 =
        PyVal.vStr "" := by
  refine ⟨?_, ?_, ?_⟩
  · have h := applyEdit_string_coercion cfgOff [] (blankSheet 8 4)
      ⟨5, 2, PyVal.vStr "12"⟩ "12" (by decide) (by decide) rfl
    exact (h.2.2.1 ⟨by decide, by decide⟩).trans (by decide)
  · have h := applyEdit_string_coercion cfgOff [] (blankSheet 8 4)
      ⟨5, 2, PyVal.vStr "   "⟩ "   " (by decide) (by decide) rfl
    exact h.1 ⟨by decide, rfl⟩
  · have h := applyEdit_string_coercion cfgOn [] (blankSheet 8 4)
      ⟨5, 2, PyVal.vStr "   "⟩ "   " (by decide) (by decide) rfl
    exact h.2.1 ⟨by decide, rfl⟩

/-- A JSON scalar as it arrives in an edit entry.  Non-integer JSON
numbers are outside this model; the program under test only receives
strings and integers from the grid client. -/
inductive JVal : Type where
  | null : JVal
  | str (s : String) : JVal
  | int (n : Int) : JVal
  deriving DecidableEq, Repr

/-- A raw edit entry: `cell.get("r", 0)`, `cell.get("c", 0)` and
`cell.get("v", "")` before any coercion (the defaults stand in for
missing keys). -/
structure RawEdit : Type where
  r : JVal := JVal.int 0
  c : JVal := JVal.int 0
  v : JVal := JVal.str ""

/-- `int(x or 0)` as applied to a raw coordinate: falsy values (`None`,
`""`, `0`) give 0; a nonempty string must parse as an integer literal
or the call raises (`Except.error`). -/
def pyToIntE : JVal → Except Unit Int
  | JVal.null => Except.ok 0
  | JVal.int n => Except.ok n
  | JVal.str s =>
      if s = "" then Except.ok 0
      else
        match pyIntParse s with
        | some n => Except.ok n
        | none => Except.error ()

/-- The Python value carried by a raw `v` field. -/
def jvalToPyVal : JVal → PyVal
  | JVal.null => PyVal.vNone
  | JVal.str s => PyVal.vStr s
  | JVal.int n => PyVal.vInt n

/-- A character openpyxl refuses in worksheet strings
(`ILLEGAL_CHARACTERS_RE`, the XML-illegal control characters
0x00-0x08, 0x0B, 0x0C, 0x0E-0x1F). -/
def isIllegalXlsxChar (ch : Char) : Bool :=
  decide (ch.toNat ≤ 8 ∨ ch.toNat = 11 ∨ ch.toNat = 12 ∨
    (14 ≤ ch.toNat ∧ ch.toNat ≤ 31))

/-- Whether a string is accepted by openpyxl `check_string`. -/
def strLegal (s : String) : Bool := s.data.all (fun ch => !isIllegalXlsxChar ch)

/-- `ws.cell(row=r, column=c, value=v)` with the raise path of the
openpyxl value setter tracked: a string value is truncated to 32767
characters (`value[:32767]`) and then `IllegalCharacterError` is
raised if a control character remains; non-string values bind without
a check.  (`setCellValue` above is the same write restricted to the
non-raising path, which is all the claims other than C7 concern.) -/
def pyCellWriteE (ws : Sheet) (r c : Int) (v : PyVal) : Except Unit Sheet :=
  match v with
  | PyVal.vStr s =>
      let t := String.mk (s.data.take 32767)
      if t.data.any isIllegalXlsxChar then Except.error ()
      else Except.ok (setCellValue ws r c (PyVal.vStr t))
  | v => Except.ok (setCellValue ws r c v)

/-- The edit-loop body (`app.py` lines 258-276) with the fallible cell
write: the same guard, anchor resolution and value coercion as
`applyEdit`, but every write goes through `pyCellWriteE` so that an
illegal-character string raises instead of binding. -/
def applyEditE (cfg : Config) (origMerges : List MergeRange)
    (ws : Sheet) (e : Edit) : Except Unit Sheet :=
  if e.r ≤ 0 ∨ e.c ≤ 0 then Except.ok ws
  else
    let a := map_to_anchor_with_snapshot e.r e.c origMerges
    match e.v with
    | PyVal.vStr s0 =>
        let s := pyStrip s0
        if s = "" then
          if cfg.allowBlankOverwrite then pyCellWriteE ws a.1 a.2 (PyVal.vStr "")
          else Except.ok ws
        else if pyIsdigit s then pyCellWriteE ws a.1 a.2 (PyVal.vInt (digitsToInt s))
        else if pyFloatOk s then pyCellWriteE ws a.1 a.2 (PyVal.vFloat s)
        else pyCellWriteE ws a.1 a.2 (PyVal.vStr s0)
    | v => pyCellWriteE ws a.1 a.2 v

/-- One iteration of the edit loop on a raw entry, including the
fallible `int(...)` coordinate coercions (`app.py` lines 254-257) and
the fallible cell write (line 276); there is no exception handler
around the loop body. -/
def applyRawEditE (cfg : Config) (origMerges : List MergeRange)
    (ws : Sheet) (e : RawEdit) : Except Unit Sheet := do
  let r ← pyToIntE e.r
  let c ← pyToIntE e.c
  applyEditE cfg origMerges ws { r := r, c := c, v := jvalToPyVal e.v }

/-- The raw edit loop: the first raising iteration aborts the export. -/
def applyRawEditsE (cfg : Config) (origMerges : List MergeRange)
    (edits : List RawEdit) (ws : Sheet) : Except Unit Sheet :=
  edits.foldlM (applyRawEditE cfg origMerges) ws

/-- Whether an `Except` computation succeeded. -/
def isOkE {α : Type} : Except Unit α → Bool
  | Except.ok _ => true
  | Except.error _ => false

/-- Counterexample to C7 — neither failure mode is skipped: an edit
whose row field is the non-numeric string "x" raises in `int("x")`,
and an edit with valid coordinates (1, 1) whose value string holds the
control character U+0000 reaches the unprotected `ws.cell(...)` write,
which raises `IllegalCharacterError`; both abort the export. -/
theorem applyRawEditsE_raises_on_bad_row :
    applyRawEditsE cfgOff []
      [{ r := JVal.str "x", c := JVal.int 1, v := JVal.str "hello" }]
      (blankSheet 3 3) = Except.error () ∧
    applyRawEditsE cfgOff []
      [{ r := JVal.int 1, c := JVal.int 1, v := JVal.str "\x00" }]
      (blankSheet 3 3) = Except.error () :=
  ⟨rfl, rfl⟩

theorem strLegal_take (s : String) (h : strLegal s = true) :
    (String.mk (s.data.take 32767)).data.any isIllegalXlsxChar = false := by
  show (s.data.take 32767).any isIllegalXlsxChar = false
  rw [← Bool.not_eq_true, List.any_eq_true]
  rintro ⟨x, hx, hpx⟩
  have hleg := List.all_eq_true.mp h x ((List.take_sublist _ _).subset hx)
  rw [hpx] at hleg
  simp at hleg

theorem pyCellWriteE_ok (ws : Sheet) (r c : Int) (v : PyVal)
    (hv : ∀ s, v = PyVal.vStr s → strLegal s = true) :
    isOkE (pyCellWriteE ws r c v) = true := by
  cases v with
  | vStr s =>
    have h := strLegal_take s (hv s rfl)
    simp only [pyCellWriteE]
    rw [h]
    rfl
  | vNone => rfl
  | vInt n => rfl
  | vFloat lit => rfl

theorem applyEditE_ok (cfg : Config) (orig : List MergeRange) (ws : Sheet) (e : Edit)
    (hv : ∀ s, e.v = PyVal.vStr s → strLegal s = true) :
    isOkE (applyEditE cfg orig ws e) = true := by
  unfold applyEditE
  split
  · rfl
  · cases hev : e.v with
    | vNone => rfl
    | vInt n => rfl
    | vFloat lit => rfl
    | vStr s =>
      simp only
      split
      · split
        · exact pyCellWriteE_ok _ _ _ _ (fun s' hs' => by
            injection hs' with h'
            rw [← h']
            rfl)
        · rfl
      · split
        · rfl
        · split
          · rfl
          · exact pyCellWriteE_ok _ _ _ _ (fun s' hs' => by
              injection hs' with h'
              rw [← h']
              exact hv s hev)

/-- Legality of the raw `v` field as a string payload. -/
def jvalStrLegal : JVal → Bool
  | JVal.str s => strLegal s
  | _ => true

/-- C7 (amended): edits with non-positive row or column are silently
skipped with no change to the sheet, and when every edit's row and
column fields coerce to integers and no string value carries an
XML-illegal control character the edit loop never raises; but there is
no per-edit recovery — a failing coordinate coercion, or an
illegal-character string reaching the cell write, aborts the whole
export. -/
theorem applyRawEditsE_ok_of_wellformed (cfg : Config) (orig : List MergeRange)
    (edits : List RawEdit) (ws : Sheet)
    (h : ∀ e ∈ edits, isOkE (pyToIntE e.r) = true ∧ isOkE (pyToIntE e.c) = true ∧
        jvalStrLegal e.v = true) :
    isOkE (applyRawEditsE cfg orig edits ws) = true ∧
    (∀ (ws' : Sheet) (e : Edit), e.r ≤ 0 ∨ e.c ≤ 0 →
        applyEditE cfg orig ws' e = Except.ok ws') := by
  constructor
  · induction edits generalizing ws with
    | nil => rfl
    | cons e t ih =>
      obtain ⟨hre, hce, hve⟩ := h e (List.mem_cons_self e t)
      obtain ⟨rn, hrn⟩ : ∃ n, pyToIntE e.r = Except.ok n := by
        cases hx : pyToIntE e.r with
        | ok n => exact ⟨n, rfl⟩
        | error u => rw [hx] at hre; exact absurd hre (by simp [isOkE])
      obtain ⟨cn, hcn⟩ : ∃ n, pyToIntE e.c = Except.ok n := by
        cases hx : pyToIntE e.c with
        | ok n => exact ⟨n, rfl⟩
        | error u => rw [hx] at hce; exact absurd hce (by simp [isOkE])
      have hok : isOkE (applyEditE cfg orig ws
          { r := rn, c := cn, v := jvalToPyVal e.v }) = true := by
        refine applyEditE_ok cfg orig ws _ (fun s hs => ?_)
        cases hv' : e.v with
        | null => rw [hv'] at hs; simp [jvalToPyVal] at hs
        | int n => rw [hv'] at hs; simp [jvalToPyVal] at hs
        | str s' =>
          rw [hv'] at hs
          simp only [jvalToPyVal] at hs
          injection hs with h'
          rw [← h']
          rw [hv'] at hve
          simpa [jvalStrLegal] using hve
      obtain ⟨ws'', hws''⟩ : ∃ w, applyEditE cfg orig ws
          { r := rn, c := cn, v := jvalToPyVal e.v } = Except.ok w := by
        cases hx : applyEditE cfg orig ws { r := rn, c := cn, v := jvalToPyVal e.v } with
        | ok w => exact ⟨w, rfl⟩
        | error u => rw [hx] at hok; exact absurd hok (by simp [isOkE])
      have hstep : applyRawEditE cfg orig ws e = Except.ok ws'' := by
        unfold applyRawEditE
        rw [hrn, hcn]
        show applyEditE cfg orig ws { r := rn, c := cn, v := jvalToPyVal e.v } =
          Except.ok ws''
        exact hws''
      unfold applyRawEditsE
      rw [List.foldlM_cons, hstep]
      exact ih ws'' (fun x hx => h x (List.mem_cons_of_mem e hx))
  · intro ws' e he
    unfold applyEditE
    rw [if_pos he]

/-- Witness for C7 (amended): a list whose first edit has row 0 and
whose second writes a legal string at `(2, 2)` applies without
raising, and the row-0 edit alone leaves the sheet unchanged. -/
theorem applyRawEditsE_ok_of_wellformed_witness :
    isOkE (applyRawEditsE cfgOff []
        [{ r := JVal.int 0, c := JVal.int 5, v := JVal.str "a" },
         { r := JVal.int 2, c := JVal.int 2, v := JVal.str "7" }]
        (blankSheet 3 3)) = true ∧
    applyEditE cfgOff [] (blankSheet 3 3) ⟨0, 5, PyVal.vStr "a"⟩ =
      Except.ok (blankSheet 3 3) := by
  have h := applyRawEditsE_ok_of_wellformed cfgOff []
    [{ r := JVal.int 0, c := JVal.int 5, v := JVal.str "a" },
     { r := JVal.int 2, c := JVal.int 2, v := JVal.str "7" }]
    (blankSheet 3 3) (by decide)
  exact ⟨h.1, h.2 (blankSheet 3 3) ⟨0, 5, PyVal.vStr "a"⟩ (by decide)⟩

/-- `_px_to_pt(px)`. -/
def px_to_pt (px : ℚ) : ℚ := px * 72 / 96

/-- `_uniform_row_height_pt(ws)`: environment override, else the
height of row 1 if set and nonzero, else the sheet default row height
if set and nonzero, else 15pt.  (Python truthiness: a 0.0 height falls
through to the next candidate.) -/
def uniform_row_height_pt (cfg : Config) (ws : Sheet) : ℚ :=
  match cfg.uniformRowHeightPx with
  | some px => px_to_pt px
  | none =>
      let h1 := (ws.rowHeight 1).getD 0
      if h1 ≠ 0 then h1
      else
        let drh := ws.defaultRowHeight.getD 0
        if drh ≠ 0 then drh else 15

/-- `_col_char_width(ws, col_index)`: explicit nonzero column width,
else the sheet default column width. -/
def col_char_width (ws : Sheet) (c : Int) : ℚ :=
  match ws.colWidth c with
  | some w => if w ≠ 0 then w else ws.defaultColWidth
  | none => ws.defaultColWidth

/-- `_estimate_needed_lines(text, chars_per_line)`: split on newlines
(empty text counts as one empty line), take the ceiling of each line
length divided by the per-line capacity (at least 1 per line), sum, at
least 1 overall.  `math.ceil(len/c)` is modelled as exact ceiling
division. -/
def estimate_needed_lines (text : String) (charsPerLine : Int) : Nat :=
  let cpl : Nat := if charsPerLine ≤ 0 then 1 else charsPerLine.toNat
  let parts := match pySplitlines text with
    | [] => [""]
    | ps => ps
  let lines := parts.foldl (fun acc part => acc + max 1 ((part.length + cpl - 1) / cpl)) 0
  max 1 lines

/-- The merge span lookup of the autosizer: the column span of the
first merged range anchored at `(rr, cc)`, else 1. -/
def mergeSpanAt (ws : Sheet) (rr cc : Int) : Int :=
  match ws.merges.find? (fun m => decide (m.minRow = rr ∧ m.minCol = cc)) with
  | some m => m.maxCol - m.minCol + 1
  | none => 1

/-- `chars_capacity` for the cell `(rr, cc)`: the summed character
width of the spanned columns, rounded, at least 1. -/
def charsCapacityAt (ws : Sheet) (rr cc : Int) : Int :=
  let span := mergeSpanAt ws rr cc
  let total : ℚ :=
    ((List.range span.toNat).map (fun (i : Nat) => col_char_width ws (cc + (i : Int)))).foldl
      (· + ·) 0
  max 1 (pyRound total)

/-- The estimated display line count of cell `(rr, cc)`. -/
def neededLinesAt (ws : Sheet) (rr cc : Int) : Nat :=
  estimate_needed_lines (pyStr (ws.cellVal rr cc)) (charsCapacityAt ws rr cc)

/-- The inner (per-column) loop body of the row autosizer: skip shadow
cells and empty values; enable wrap when more than one line is needed;
track the row maximum. -/
def autosizeColStep (rr : Int) (p : Sheet × Nat) (cc : Int) : Sheet × Nat :=
  if isShadow p.1 rr cc then p
  else if p.1.cellVal rr cc = PyVal.vNone ∨ pyStr (p.1.cellVal rr cc) = "" then p
  else
    let needed := neededLinesAt p.1 rr cc
    let ws' := if 1 < needed then setCellAlign p.1 rr cc { wrapText := true } else p.1
    (ws', max p.2 needed)

/-- One row of the autosizer: fold the columns, then set the row
height to `max(base, base * max_lines)`. -/
def autosizeRowStep (base : ℚ) (ws : Sheet) (rr : Int) : Sheet :=
  let p := (colsList ws).foldl (autosizeColStep rr) (ws, 1)
  setRowHeight p.1 rr (max base (base * (p.2 : ℚ)))

/-- The full autosize pass of `apply_cells_and_export` (lines 332-356):
baseline computation, the row loop, and the final default-row-height
assignment. -/
def autosizeRows (cfg : Config) (ws : Sheet) : Sheet :=
  let base := uniform_row_height_pt cfg ws
  let ws' := (rowsList ws).foldl (fun w rr => autosizeRowStep base w rr) ws
  { ws' with defaultRowHeight := some base }

/-- The pure per-column maximum step (reads only the original sheet). -/
def maxLinesStep (ws0 : Sheet) (rr : Int) (acc : Nat) (cc : Int) : Nat :=
  if isShadow ws0 rr cc then acc
  else if ws0.cellVal rr cc = PyVal.vNone ∨ pyStr (ws0.cellVal rr cc) = "" then acc
  else max acc (neededLinesAt ws0 rr cc)

/-- `max_lines` for a row: the largest estimated line count over the
row's non-shadow, non-empty cells, starting from 1. -/
def maxLinesInRow (ws0 : Sheet) (rr : Int) : Nat :=
  (colsList ws0).foldl (maxLinesStep ws0 rr) 1

/-- The sheet fields the autosizer reads: dimensions, values, merges
and column widths (it writes only alignments and row heights). -/
def sameLayout (w w0 : Sheet) : Prop :=
  w.maxRow = w0.maxRow ∧ w.maxCol = w0.maxCol ∧ w.cellVal = w0.cellVal ∧
    w.merges = w0.merges ∧ w.colWidth = w0.colWidth ∧
    w.defaultColWidth = w0.defaultColWidth

theorem sameLayout_refl (w : Sheet) : sameLayout w w :=
  ⟨rfl, rfl, rfl, rfl, rfl, rfl⟩

theorem sameLayout_trans {a b c : Sheet} (h1 : sameLayout a b) (h2 : sameLayout b c) :
    sameLayout a c :=
  ⟨h1.1.trans h2.1, h1.2.1.trans h2.2.1, h1.2.2.1.trans h2.2.2.1,
   h1.2.2.2.1.trans h2.2.2.2.1, h1.2.2.2.2.1.trans h2.2.2.2.2.1,
   h1.2.2.2.2.2.trans h2.2.2.2.2.2⟩

theorem isShadow_congr {w w0 : Sheet} (h : sameLayout w w0) (r c : Int) :
    isShadow w r c = isShadow w0 r c := by
  unfold isShadow
  rw [h.2.2.2.1]

theorem colsList_congr {w w0 : Sheet} (h : sameLayout w w0) :
    colsList w = colsList w0 := by
  unfold colsList
  rw [h.2.1]

theorem neededLinesAt_congr {w w0 : Sheet} (h : sameLayout w w0) (rr cc : Int) :
    neededLinesAt w rr cc = neededLinesAt w0 rr cc := by
  obtain ⟨h1, h2, h3, h4, h5, h6⟩ := h
  unfold neededLinesAt charsCapacityAt mergeSpanAt col_char_width
  rw [h3, h4, h5, h6]

theorem autosizeColStep_layout (rr : Int) (p : Sheet × Nat) (cc : Int) :
    sameLayout (autosizeColStep rr p cc).1 p.1 ∧
    (autosizeColStep rr p cc).1.rowHeight = p.1.rowHeight ∧
    (autosizeColStep rr p cc).1.defaultRowHeight = p.1.defaultRowHeight := by
  unfold autosizeColStep
  split
  · exact ⟨sameLayout_refl _, rfl, rfl⟩
  · split
    · exact ⟨sameLayout_refl _, rfl, rfl⟩
    · simp only
      split
      · exact ⟨⟨rfl, rfl, rfl, rfl, rfl, rfl⟩, rfl, rfl⟩
      · exact ⟨sameLayout_refl _, rfl, rfl⟩

theorem foldCols_layout (rr : Int) (l : List Int) (p : Sheet × Nat) :
    sameLayout (l.foldl (autosizeColStep rr) p).1 p.1 ∧
    (l.foldl (autosizeColStep rr) p).1.rowHeight = p.1.rowHeight ∧
    (l.foldl (autosizeColStep rr) p).1.defaultRowHeight = p.1.defaultRowHeight := by
  induction l generalizing p with
  | nil => exact ⟨sameLayout_refl _, rfl, rfl⟩
  | cons a t ih =>
    rw [List.foldl_cons]
    have hstep := autosizeColStep_layout rr p a
    have hrec := ih (autosizeColStep rr p a)
    exact ⟨sameLayout_trans hrec.1 hstep.1, hrec.2.1.trans hstep.2.1,
      hrec.2.2.trans hstep.2.2⟩

theorem autosizeColStep_eq (rr : Int) (ws0 : Sheet) (p : Sheet × Nat) (cc : Int)
    (hp : sameLayout p.1 ws0) :
    (autosizeColStep rr p cc).2 = maxLinesStep ws0 rr p.2 cc := by
  have hsh : isShadow p.1 rr cc = isShadow ws0 rr cc := isShadow_congr hp rr cc
  have hval : p.1.cellVal = ws0.cellVal := hp.2.2.1
  have hneed : neededLinesAt p.1 rr cc = neededLinesAt ws0 rr cc := neededLinesAt_congr hp rr cc
  unfold autosizeColStep maxLinesStep
  rw [hsh, hval, hneed]
  split
  · rfl
  · split
    · rfl
    · rfl

theorem foldCols_maxL (rr : Int) (ws0 : Sheet) (l : List Int) (p : Sheet × Nat)
    (hp : sameLayout p.1 ws0) :
    (l.foldl (autosizeColStep rr) p).2 = l.foldl (maxLinesStep ws0 rr) p.2 := by
  induction l generalizing p with
  | nil => rfl
  | cons a t ih =>
    rw [List.foldl_cons, List.foldl_cons]
    have hlay : sameLayout (autosizeColStep rr p a).1 ws0 :=
      sameLayout_trans (autosizeColStep_layout rr p a).1 hp
    rw [ih (autosizeColStep rr p a) hlay, autosizeColStep_eq rr ws0 p a hp]

theorem autosizeColStep_align_other (rr : Int) (p : Sheet × Nat) (cc r' c' : Int)
    (h : ¬(r' = rr ∧ c' = cc)) :
    (autosizeColStep rr p cc).1.cellAlign r' c' = p.1.cellAlign r' c' := by
  unfold autosizeColStep
  split
  · rfl
  · split
    · rfl
    · simp only
      split
      · simp [setCellAlign, h]
      · rfl

theorem foldCols_align_untouched (rr : Int) (l : List Int) (p : Sheet × Nat) (r' c' : Int)
    (h : r' ≠ rr ∨ c' ∉ l) :
    (l.foldl (autosizeColStep rr) p).1.cellAlign r' c' = p.1.cellAlign r' c' := by
  induction l generalizing p with
  | nil => rfl
  | cons a t ih =>
    rw [List.foldl_cons]
    have hna : ¬(r' = rr ∧ c' = a) := by
      rcases h with h | h
      · rintro ⟨h1, h2⟩; exact h h1
      · rintro ⟨h1, h2⟩; exact h (h2 ▸ List.mem_cons_self a t)
    have ht : r' ≠ rr ∨ c' ∉ t := by
      rcases h with h | h
      · exact Or.inl h
      · exact Or.inr (fun hc => h (List.mem_cons_of_mem a hc))
    rw [ih (autosizeColStep rr p a) ht, autosizeColStep_align_other rr p a r' c' hna]

theorem foldCols_align_wrap (rr : Int) (ws0 : Sheet) (l : List Int) (p : Sheet × Nat)
    (cc : Int) (hp : sameLayout p.1 ws0) (hnodup : l.Nodup) (hmem : cc ∈ l)
    (hsh : isShadow ws0 rr cc = false) (hnn : ws0.cellVal rr cc ≠ PyVal.vNone)
    (hns : pyStr (ws0.cellVal rr cc) ≠ "") (hgt : 1 < neededLinesAt ws0 rr cc) :
    (l.foldl (autosizeColStep rr) p).1.cellAlign rr cc =
      { horizontal := none, vertical := none, wrapText := true } := by
  induction l generalizing p with
  | nil => cases hmem
  | cons a t ih =>
    rw [List.foldl_cons]
    rcases List.mem_cons.mp hmem with h | h
    · subst h
      have hnt : cc ∉ t := (List.nodup_cons.mp hnodup).1
      rw [foldCols_align_untouched rr t (autosizeColStep rr p cc) rr cc (Or.inr hnt)]
      have hsh' : isShadow p.1 rr cc = false := (isShadow_congr hp rr cc).trans hsh
      have hval : p.1.cellVal = ws0.cellVal := hp.2.2.1
      have hneed : neededLinesAt p.1 rr cc = neededLinesAt ws0 rr cc :=
        neededLinesAt_congr hp rr cc
      unfold autosizeColStep
      rw [hsh']
      simp only [Bool.false_eq_true, if_false]
      rw [hval, if_neg (by exact fun hor => hor.elim hnn hns)]
      simp only [hneed]
      rw [if_pos hgt]
      simp [setCellAlign]
    · have hlay : sameLayout (autosizeColStep rr p a).1 ws0 :=
        sameLayout_trans (autosizeColStep_layout rr p a).1 hp
      exact ih (autosizeColStep rr p a) hlay (List.nodup_cons.mp hnodup).2 h

theorem colsList_pairwise (ws : Sheet) : (colsList ws).Pairwise (· < ·) := by
  unfold colsList
  refine List.Pairwise.map _ (fun a b h => ?_) (List.pairwise_lt_range ws.maxCol)
  change (a : Int) + 1 < (b : Int) + 1
  omega

theorem colsList_nodup (ws : Sheet) : (colsList ws).Nodup :=
  (colsList_pairwise ws).imp (fun h => ne_of_lt h)

theorem rowsList_nodup (ws : Sheet) : (rowsList ws).Nodup :=
  (rowsList_pairwise ws).imp (fun h => ne_of_lt h)

theorem setRowHeight_at (ws : Sheet) (r : Int) (h : ℚ) :
    (setRowHeight ws r h).rowHeight r = some h := by
  simp [setRowHeight]

theorem setRowHeight_other (ws : Sheet) (r : Int) (h : ℚ) (r' : Int) (hne : r' ≠ r) :
    (setRowHeight ws r h).rowHeight r' = ws.rowHeight r' := by
  simp [setRowHeight, hne]

theorem autosizeRowStep_layout (base : ℚ) (w : Sheet) (rr : Int) :
    sameLayout (autosizeRowStep base w rr) w := by
  have h := (foldCols_layout rr (colsList w) (w, 1)).1
  exact ⟨h.1, h.2.1, h.2.2.1, h.2.2.2.1, h.2.2.2.2.1, h.2.2.2.2.2⟩

theorem autosizeRowStep_height_other (base : ℚ) (w : Sheet) (rr r' : Int) (h : r' ≠ rr) :
    (autosizeRowStep base w rr).rowHeight r' = w.rowHeight r' := by
  simp only [autosizeRowStep]
  rw [setRowHeight_other _ _ _ _ h]
  exact (foldCols_layout rr (colsList w) (w, 1)).2.1 ▸ rfl

theorem autosizeRowStep_height_set (base : ℚ) (ws0 w : Sheet) (rr : Int)
    (hw : sameLayout w ws0) :
    (autosizeRowStep base w rr).rowHeight rr =
      some (max base (base * (maxLinesInRow ws0 rr : ℚ))) := by
  simp only [autosizeRowStep]
  rw [setRowHeight_at]
  have h2 : ((colsList w).foldl (autosizeColStep rr) (w, 1)).2 = maxLinesInRow ws0 rr := by
    rw [foldCols_maxL rr ws0 (colsList w) (w, 1) hw, colsList_congr hw]
    rfl
  rw [h2]

theorem autosizeRowStep_align_other (base : ℚ) (w : Sheet) (rr r' c' : Int) (h : r' ≠ rr) :
    (autosizeRowStep base w rr).cellAlign r' c' = w.cellAlign r' c' := by
  simp only [autosizeRowStep]
  show (((colsList w).foldl (autosizeColStep rr) (w, 1)).1).cellAlign r' c' = w.cellAlign r' c'
  exact foldCols_align_untouched rr (colsList w) (w, 1) r' c' (Or.inl h)

theorem autosizeRowStep_align_wrap (base : ℚ) (ws0 w : Sheet) (rr cc : Int)
    (hw : sameLayout w ws0) (hcc : cc ∈ colsList ws0)
    (hsh : isShadow ws0 rr cc = false) (hnn : ws0.cellVal rr cc ≠ PyVal.vNone)
    (hns : pyStr (ws0.cellVal rr cc) ≠ "") (hgt : 1 < neededLinesAt ws0 rr cc) :
    (autosizeRowStep base w rr).cellAlign rr cc =
      { horizontal := none, vertical := none, wrapText := true } := by
  simp only [autosizeRowStep]
  show (((colsList w).foldl (autosizeColStep rr) (w, 1)).1).cellAlign rr cc = _
  refine foldCols_align_wrap rr ws0 (colsList w) (w, 1) cc hw ?_ ?_ hsh hnn hns hgt
  · rw [colsList_congr hw]
    exact colsList_nodup ws0
  · rw [colsList_congr hw]
    exact hcc

theorem foldRows_untouched (base : ℚ) (l : List Int) (w : Sheet) (rr : Int) (h : rr ∉ l) :
    (l.foldl (fun x r => autosizeRowStep base x r) w).rowHeight rr = w.rowHeight rr ∧
    ∀ cc, (l.foldl (fun x r => autosizeRowStep base x r) w).cellAlign rr cc =
      w.cellAlign rr cc := by
  induction l generalizing w with
  | nil => exact ⟨rfl, fun _ => rfl⟩
  | cons a t ih =>
    simp only [List.foldl_cons]
    have hne : rr ≠ a := fun he => h (he ▸ List.mem_cons_self a t)
    have ht : rr ∉ t := fun hc => h (List.mem_cons_of_mem a hc)
    obtain ⟨ih1, ih2⟩ := ih (autosizeRowStep base w a) ht
    exact ⟨ih1.trans (autosizeRowStep_height_other base w a rr hne),
      fun cc => (ih2 cc).trans (autosizeRowStep_align_other base w a rr cc hne)⟩

theorem foldRows_spec (base : ℚ) (ws0 : Sheet) (l : List Int) (w : Sheet) (rr : Int)
    (hw : sameLayout w ws0) :
    l.Nodup → rr ∈ l →
    (l.foldl (fun x r => autosizeRowStep base x r) w).rowHeight rr =
        some (max base (base * (maxLinesInRow ws0 rr : ℚ))) ∧
    (∀ cc, cc ∈ colsList ws0 → isShadow ws0 rr cc = false →
      ws0.cellVal rr cc ≠ PyVal.vNone → pyStr (ws0.cellVal rr cc) ≠ "" →
      1 < neededLinesAt ws0 rr cc →
      (l.foldl (fun x r => autosizeRowStep base x r) w).cellAlign rr cc =
        { horizontal := none, vertical := none, wrapText := true }) := by
  induction l generalizing w with
  | nil => intro _ hmem; cases hmem
  | cons a t ih =>
    intro hnodup hmem
    simp only [List.foldl_cons]
    rcases List.mem_cons.mp hmem with h | h
    · subst h
      have hnt : rr ∉ t := (List.nodup_cons.mp hnodup).1
      obtain ⟨hu1, hu2⟩ := foldRows_untouched base t (autosizeRowStep base w rr) rr hnt
      constructor
      · exact hu1.trans (autosizeRowStep_height_set base ws0 w rr hw)
      · intro cc hcc hsh hnn hns hgt
        exact (hu2 cc).trans
          (autosizeRowStep_align_wrap base ws0 w rr cc hw hcc hsh hnn hns hgt)
    · have hw' : sameLayout (autosizeRowStep base w a) ws0 :=
        sameLayout_trans (autosizeRowStep_layout base w a) hw
      exact ih (autosizeRowStep base w a) hw' (List.nodup_cons.mp hnodup).2 h

/-- C5: for every row the autosizer processes, the final height equals
`max(baseline, baseline * maxLinesInRow)` where `maxLinesInRow` is the
largest estimated line count over the row's non-shadow non-empty cells
(1 when there are none); the height is therefore at least the
baseline; with baseline 15pt and a 3-line row the height is exactly
45pt; and every processed cell estimated at more than one line gets
its wrap-text flag enabled. -/
theorem autosizeRows_row_spec (cfg : Config) (ws : Sheet) (rr : Int)
    (hrr : rr ∈ rowsList ws) :
    (autosizeRows cfg ws).rowHeight rr =
        some (max (uniform_row_height_pt cfg ws)
          (uniform_row_height_pt cfg ws * (maxLinesInRow ws rr : ℚ))) ∧
    uniform_row_height_pt cfg ws ≤
        max (uniform_row_height_pt cfg ws)
          (uniform_row_height_pt cfg ws * (maxLinesInRow ws rr : ℚ)) ∧
    (uniform_row_height_pt cfg ws = 15 → maxLinesInRow ws rr = 3 →
      (autosizeRows cfg ws).rowHeight rr = some 45) ∧
    (∀ cc ∈ colsList ws, isShadow ws rr cc = false →
      ws.cellVal rr cc ≠ PyVal.vNone → pyStr (ws.cellVal rr cc) ≠ "" →
      1 < neededLinesAt ws rr cc →
      ((autosizeRows cfg ws).cellAlign rr cc).wrapText = true) := by
  have hspec := foldRows_spec (uniform_row_height_pt cfg ws) ws (rowsList ws) ws rr
    (sameLayout_refl ws) (rowsList_nodup ws) hrr
  refine ⟨hspec.1, le_max_left _ _, ?_, ?_⟩
  · intro h15 h3
    have h2 : (autosizeRows cfg ws).rowHeight rr =
        some (max (uniform_row_height_pt cfg ws)
          (uniform_row_height_pt cfg ws * (maxLinesInRow ws rr : ℚ))) := hspec.1
    rw [h2, h15, h3]
    norm_num
  · intro cc hcc hsh hnn hns hgt
    have h2 : (autosizeRows cfg ws).cellAlign rr cc =
        { horizontal := none, vertical := none, wrapText := true } :=
      hspec.2 cc hcc hsh hnn hns hgt
    rw [h2]

/-- C10: when the autosizer needs more than one line for a processed
cell, it assigns a fresh `Alignment(wrap_text=True)`, replacing the
entire previous alignment, so any horizontal or vertical alignment the
cell carried (for example the centered alignment written earlier in the
same export) is reset to the openpyxl default. -/
theorem autosizeRows_wrap_resets_alignment (cfg : Config) (ws : Sheet) (rr cc : Int)
    (hrr : rr ∈ rowsList ws) (hcc : cc ∈ colsList ws)
    (hsh : isShadow ws rr cc = false) (hnn : ws.cellVal rr cc ≠ PyVal.vNone)
    (hns : pyStr (ws.cellVal rr cc) ≠ "") (hgt : 1 < neededLinesAt ws rr cc) :
    (autosizeRows cfg ws).cellAlign rr cc =
      { horizontal := none, vertical := none, wrapText := true } :=
  (foldRows_spec (uniform_row_height_pt cfg ws) ws (rowsList ws) ws rr
    (sameLayout_refl ws) (rowsList_nodup ws) hrr).2 cc hcc hsh hnn hns hgt

/-- A sheet whose cell (1, 1) holds 30 characters in a 10-character
column, with a default row height of 15pt. -/
def autosizeDemoSheet : Sheet :=
  { blankSheet 2 2 with
    cellVal := fun r c =>
      if r = 1 ∧ c = 1 then PyVal.vStr "abcdefghijklmnopqrstuvwxyz0123" else PyVal.vNone
    colWidth := fun c => if c = 1 then some 10 else none
    defaultRowHeight := some 15 }

section
attribute [local semireducible] Rat.add Rat.mul Rat.inv Rat.sub Rat.ofScientific

/-- Witness for C5: the 30-character cell needs 3 estimated lines at
capacity 10, so with baseline 15pt row 1 ends at exactly 45pt. -/
theorem autosizeRows_row_spec_witness :
    (autosizeRows cfgOff autosizeDemoSheet).rowHeight 1 = some 45 :=
  (autosizeRows_row_spec cfgOff autosizeDemoSheet 1 (by decide)).2.2.1
    (by decide) (by decide)

/-- The same sheet with a fully centered alignment previously set on
the long cell. -/
def autosizeDemoSheet2 : Sheet :=
  { autosizeDemoSheet with
    cellAlign := fun r c =>
      if r = 1 ∧ c = 1 then
        { horizontal := some "center", vertical := some "center", wrapText := true }
      else {} }

/-- Witness for C10: the previously centered alignment of the wrapped
cell is replaced by a wrap-only alignment. -/
theorem autosizeRows_wrap_resets_alignment_witness :
    (autosizeRows cfgOff autosizeDemoSheet2).cellAlign 1 1 =
      { horizontal := none, vertical := none, wrapText := true } :=
  autosizeRows_wrap_resets_alignment cfgOff autosizeDemoSheet2 1 1
    (by decide) (by decide) (by decide) (by decide) (by decide) (by decide)

end

/-- `ws.insert_rows(1, amount)`: shifts the cells of every row down by
`amount` and grows `max_row`.  openpyxl moves cell contents and styles
but neither the merged ranges nor `row_dimensions`; the pipeline calls
this while no merges exist. -/
def insertRowsTop (n : Nat) (ws : Sheet) : Sheet :=
  { ws with
    maxRow := ws.maxRow + n
    cellVal := fun r c => if r ≤ (n : Int) then PyVal.vNone else ws.cellVal (r - n) c
    cellAlign := fun r c => if r ≤ (n : Int) then {} else ws.cellAlign (r - n) c
    cellFontColor := fun r c => if r ≤ (n : Int) then none else ws.cellFontColor (r - n) c }

/-- `value not in (None, "")`. -/
def nonEmptyVal (v : PyVal) : Bool :=
  !(v == PyVal.vNone) && !(v == PyVal.vStr "")

/-- `_last_used_bounds(ws)`: last row holding any non-empty cell, and
the largest non-empty column (at least 1). -/
def last_used_bounds (ws : Sheet) : Int × Int :=
  let p := (rowsList ws).foldl
    (fun (p : Int × Int) r =>
      let q := (colsList ws).foldl
        (fun (q : Bool × Int) c =>
          if nonEmptyVal (ws.cellVal r c) then (true, max q.2 c) else q)
        (false, p.2)
      (if q.1 then r else p.1, q.2))
    (0, 0)
  (p.1, max p.2 1)

/-- The banner dictionary of an export request; every lookup the code
performs is a field (`none` for a missing key). -/
structure Banner : Type where
  lastNightItem : Option String := none
  lastNightHeavy : Option String := none
  tonightItem : Option String := none
  tonightHeavy : Option String := none
  notes : Option String := none
  keyNotes : Option String := none
  keynotes : Option String := none

/-- First top banner sentence. -/
def top_line_1 : String := "Good morning team."

/-- Second top banner sentence, built from the stripped banner fields
(`(bn.get(k) or "").strip()`). -/
def top_line_2 (bn : Banner) : String :=
  "Last night we took a " ++ pyStrip (bn.lastNightItem.getD "") ++
    ", it was heavy in " ++ pyStrip (bn.lastNightHeavy.getD "") ++ "."

/-- First bottom banner sentence. -/
def bottom_line_1 (bn : Banner) : String :=
  "Tonight we will be taking a " ++ pyStrip (bn.tonightItem.getD "") ++
    ", it will be heavy in " ++ pyStrip (bn.tonightHeavy.getD "") ++ "."

/-- Second bottom banner sentence. -/
def bottom_line_2 : String := "Please let me know if you have any questions. Thank you."

/-- `top_lines` from the source. -/
def top_lines (bn : Banner) : List String := [top_line_1, top_line_2 bn]

/-- `top_count = len([t for t in top_lines if t.strip()])`. -/
def top_count (bn : Banner) : Nat :=
  ((top_lines bn).filter (fun t => !(pyStrip t == ""))).length

/-- `enumerate(top_lines, start=1)`. -/
def bannerRowsIdx (bn : Banner) : List (Int × String) :=
  (top_lines bn).enum.map (fun p => ((p.1 : Int) + 1, p.2))

/-- The banner block of `apply_cells_and_export` (lines 294-303):
insert `top_count` rows at the top, then merge each banner row across
columns 1..max(last used column, 5), write the sentence at column 1
and center it vertically with wrap. -/
def insert_banner_rows (bn : Banner) (ws : Sheet) : Sheet :=
  let tc := top_count bn
  if tc = 0 then ws
  else
    let ws1 := insertRowsTop tc ws
    let endC := max (last_used_bounds ws1).2 5
    (bannerRowsIdx bn).foldl
      (fun w p =>
        if pyStrip p.2 == "" then w
        else
          setCellAlign
            (setCellValue (mergeCellsOp w p.1 1 p.1 endC) p.1 1 (PyVal.vStr p.2))
            p.1 1 { vertical := some "center", wrapText := true })
      ws1

/-- `collect_existing_note_lines(ws, hdr_row, start_col, end_col,
rows_below)`: join the non-empty cells of each of the rows below the
header with single spaces, strip each line, drop trailing empty lines,
join with newlines and strip.  (The `ws.cell` reads can create cells
beyond the current dimensions in openpyxl; that dimension growth is
subsumed by the merges and writes that immediately follow in the
pipeline, so this model treats the collection as read-only.) -/
def collect_existing_note_lines (ws : Sheet) (hdr_row startCol endCol : Int)
    (rowsBelow : Nat) : String :=
  let rows := (List.range rowsBelow).map (fun (i : Nat) => hdr_row + 1 + (i : Int))
  let lines := rows.map (fun r =>
    let cols := (List.range (endCol + 1 - startCol).toNat).map
      (fun (i : Nat) => startCol + (i : Int))
    let parts := cols.filterMap (fun c =>
      if nonEmptyVal (ws.cellVal r c) then some (pyStr (ws.cellVal r c)) else none)
    pyStrip (String.intercalate " " parts))
  let lines2 := (lines.reverse.dropWhile (fun l => l == "")).reverse
  pyStrip (String.intercalate "\n" lines2)

/-- `(bn.get("notes") or bn.get("keyNotes") or bn.get("keynotes") or "")`. -/
def notes_text_raw (bn : Banner) : String :=
  let a := bn.notes.getD ""
  if a ≠ "" then a
  else
    let b := bn.keyNotes.getD ""
    if b ≠ "" then b else bn.keynotes.getD ""

/-- The note body finally written: the stripped client text, or the
harvested existing text when the former is empty. -/
def notes_text_of (bn : Banner) (collected : String) : String :=
  let t := pyStrip (notes_text_raw bn)
  if t = "" then collected else t

/-- `color_upstairs_black(ws, end_col)`: between the row after
"Upstairs" and the row before the Key Notes header, force the font
color of every non-shadow cell in columns 1..end_col to black.  The
per-cell loop is modelled as one pointwise update of the font-color
map; only the color attribute is tracked (the source preserves the
other font attributes). -/
def color_upstairs_black (ws : Sheet) (endCol : Int) : Sheet :=
  match find_upstairs_row ws with
  | none => ws
  | some up =>
      let startR := up + 1
      let endR := find_keynotes_row ws 41 - 1
      if endR < startR then ws
      else
        { ws with
          cellFontColor := fun r c =>
            if startR ≤ r ∧ r ≤ endR ∧ 1 ≤ c ∧ c ≤ endCol ∧ isShadow ws r c = false
            then some "000000"
            else ws.cellFontColor r c }

/-- `apply_cells_and_export` up to the edit loop: snapshot the merges,
unmerge everything, apply the edits against the snapshot. -/
def apply_cells_stage_edits (cfg : Config) (cells : List Edit) (tpl : Sheet) : Sheet :=
  applyEdits cfg (snapshot_merges tpl) cells (unmerge_all tpl)

/-- ... then the banner insertion. -/
def apply_cells_stage_banner (cfg : Config) (cells : List Edit) (bn : Banner)
    (tpl : Sheet) : Sheet :=
  insert_banner_rows bn (apply_cells_stage_edits cfg cells tpl)

/-- ... then the reapplication of the original merges shifted by the
inserted row count. -/
def apply_cells_stage_reapply (cfg : Config) (cells : List Edit) (bn : Banner)
    (tpl : Sheet) : Sheet :=
  reapply_merges (apply_cells_stage_banner cfg cells bn tpl)
    (adjust_merges_row_offset (snapshot_merges tpl) (top_count bn))

/-- The Key Notes header row located on the reflowed sheet. -/
def apply_cells_hdr_row (cfg : Config) (cells : List Edit) (bn : Banner)
    (tpl : Sheet) : Int :=
  find_keynotes_row (apply_cells_stage_reapply cfg cells bn tpl) 41

/-- ... then the notes block: collect the existing note text, reshape
the three merged sub-blocks, write the note body (centered both ways,
wrapped) and the two bottom sentences (vertically centered, wrapped). -/
def apply_cells_stage_notes (cfg : Config) (cells : List Edit) (bn : Banner)
    (tpl : Sheet) : Sheet :=
  let ws4 := apply_cells_stage_reapply cfg cells bn tpl
  let hdr := find_keynotes_row ws4 41
  let collected := collect_existing_note_lines ws4 hdr 1 5 4
  let ws5 := shape_notes_exact ws4 hdr 1 5
  let nt := notes_text_of bn collected
  let ws6 := setCellAlign (setCellValue ws5 (hdr + 1) 1 (PyVal.vStr nt)) (hdr + 1) 1
    { horizontal := some "center", vertical := some "center", wrapText := true }
  let ws7 := setCellAlign (setCellValue ws6 (hdr + 5) 1 (PyVal.vStr (bottom_line_1 bn)))
    (hdr + 5) 1 { vertical := some "center", wrapText := true }
  setCellAlign (setCellValue ws7 (hdr + 6) 1 (PyVal.vStr bottom_line_2)) (hdr + 6) 1
    { vertical := some "center", wrapText := true }

/-- The whole transformation of `apply_cells_and_export` on an
in-memory sheet (file loading and saving aside): edits, banner, merge
reflow, notes block, Upstairs font pass, row autosize. -/
def apply_cells_and_export (cfg : Config) (cells : List Edit) (bn : Banner)
    (tpl : Sheet) : Sheet :=
  autosizeRows cfg (color_upstairs_black (apply_cells_stage_notes cfg cells bn tpl) 5)

/-- A string containing a non-whitespace character does not strip to
the empty string. -/
theorem pyStrip_ne_empty (s : String) (ch : Char) (hch : ch ∈ s.data)
    (hns : isPySpace ch = false) : pyStrip s ≠ "" := by
  intro h
  have hl : pyStripL s.data = [] := by
    have := congrArg String.data h
    simpa [pyStrip] using this
  unfold pyStripL at hl
  rw [List.reverse_eq_nil_iff] at hl
  rw [List.dropWhile_eq_nil_iff] at hl
  have hmem : ch ∈ (s.data.dropWhile isPySpace) := by
    have hsplit := List.takeWhile_append_dropWhile (p := isPySpace) (l := s.data)
    rw [← hsplit] at hch
    rcases List.mem_append.mp hch with h1 | h1
    · have := List.mem_takeWhile_imp h1
      rw [hns] at this
      cases this
    · exact h1
  have := hl ch (List.mem_reverse.mpr hmem)
  rw [hns] at this
  cases this

theorem top_line_2_strip_ne (bn : Banner) : pyStrip (top_line_2 bn) ≠ "" := by
  refine pyStrip_ne_empty _ 'L' ?_ (by decide)
  unfold top_line_2
  simp only [String.data_append]
  exact List.mem_append_left _ (List.mem_append_left _ (List.mem_append_left _
    (List.mem_append_left _ (by decide))))

theorem top_count_eq_two (bn : Banner) : top_count bn = 2 := by
  have h1 : (pyStrip top_line_1 == "") = false := by decide
  have h2 : (pyStrip (top_line_2 bn) == "") = false :=
    beq_eq_false_iff_ne.mpr (top_line_2_strip_ne bn)
  unfold top_count top_lines
  simp [List.filter, h1, h2]

theorem insert_banner_rows_spec (bn : Banner) (ws : Sheet) :
    (insert_banner_rows bn ws).maxRow = ws.maxRow + 2 ∧
    (insert_banner_rows bn ws).merges =
      ws.merges ++
        [⟨1, 1, 1, max (last_used_bounds (insertRowsTop 2 ws)).2 5⟩,
         ⟨2, 1, 2, max (last_used_bounds (insertRowsTop 2 ws)).2 5⟩] ∧
    (insert_banner_rows bn ws).cellVal 1 1 = PyVal.vStr top_line_1 ∧
    (insert_banner_rows bn ws).cellVal 2 1 = PyVal.vStr (top_line_2 bn) ∧
    (∀ c : Int, c ≠ 1 →
      (insert_banner_rows bn ws).cellVal 1 c = PyVal.vNone ∧
      (insert_banner_rows bn ws).cellVal 2 c = PyVal.vNone) := by
  have h1 : (pyStrip top_line_1 == "") = false := by decide
  have h2 : (pyStrip (top_line_2 bn) == "") = false :=
    beq_eq_false_iff_ne.mpr (top_line_2_strip_ne bn)
  have hidx : bannerRowsIdx bn = [(1, top_line_1), (2, top_line_2 bn)] := rfl
  refine ⟨?_, ?_, ?_, ?_, ?_⟩
  · simp only [insert_banner_rows, top_count_eq_two bn, hidx, List.foldl_cons,
      List.foldl_nil, h1, h2, Bool.false_eq_true, if_false]
    simp [setCellAlign, setCellValue, mergeCellsOp, insertRowsTop]
  · simp only [insert_banner_rows, top_count_eq_two bn, hidx, List.foldl_cons,
      List.foldl_nil, h1, h2, Bool.false_eq_true, if_false]
    simp [setCellAlign, setCellValue, mergeCellsOp, insertRowsTop]
  · simp only [insert_banner_rows, top_count_eq_two bn, hidx, List.foldl_cons,
      List.foldl_nil, h1, h2, Bool.false_eq_true, if_false]
    simp [setCellAlign, setCellValue, mergeCellsOp, containsB, insertRowsTop]
  · simp only [insert_banner_rows, top_count_eq_two bn, hidx, List.foldl_cons,
      List.foldl_nil, h1, h2, Bool.false_eq_true, if_false]
    simp [setCellAlign, setCellValue, mergeCellsOp, containsB, insertRowsTop]
  · intro c hc
    constructor
    · simp only [insert_banner_rows, top_count_eq_two bn, hidx, List.foldl_cons,
        List.foldl_nil, h1, h2, Bool.false_eq_true, if_false]
      simp [setCellAlign, setCellValue, mergeCellsOp, containsB, insertRowsTop, hc]
    · simp only [insert_banner_rows, top_count_eq_two bn, hidx, List.foldl_cons,
        List.foldl_nil, h1, h2, Bool.false_eq_true, if_false]
      simp [setCellAlign, setCellValue, mergeCellsOp, containsB, insertRowsTop, hc]

theorem reapply_merges_merges (ws : Sheet) (ms : List MergeRange) :
    (reapply_merges ws ms).merges =
      ws.merges ++ ms.filter (fun m => decide (m.minRow ≤ m.maxRow ∧ m.minCol ≤ m.maxCol)) := by
  induction ms generalizing ws with
  | nil => simp [reapply_merges]
  | cons m t ih =>
    unfold reapply_merges
    rw [List.foldl_cons]
    by_cases hm : m.minRow ≤ m.maxRow ∧ m.minCol ≤ m.maxCol
    · rw [if_pos hm]
      have hrec := ih (mergeCellsOp ws m.minRow m.minCol m.maxRow m.maxCol)
      unfold reapply_merges at hrec
      rw [hrec]
      have hms : (mergeCellsOp ws m.minRow m.minCol m.maxRow m.maxCol).merges =
          ws.merges ++ [m] := rfl
      rw [hms, List.filter_cons_of_pos (by simpa using hm), List.append_assoc]
      rfl
    · rw [if_neg hm]
      have hrec := ih ws
      unfold reapply_merges at hrec
      rw [hrec, List.filter_cons_of_neg (by simpa using hm)]

/-- C9: for every banner input — the four fields may all be empty —
both templated top sentences are non-empty after stripping, so the
inserted-row count `top_count` is always 2, the banner stage grows the
sheet by exactly two rows, and every valid original merge range is
reapplied shifted down by exactly 2 rows. -/
theorem banner_always_two_rows (bn : Banner) :
    top_count bn = 2 ∧
    pyStrip top_line_1 ≠ "" ∧ pyStrip (top_line_2 bn) ≠ "" ∧
    (∀ (cfg : Config) (cells : List Edit) (tpl : Sheet),
      (apply_cells_stage_banner cfg cells bn tpl).maxRow =
        (apply_cells_stage_edits cfg cells tpl).maxRow + 2 ∧
      (∀ m ∈ snapshot_merges tpl, m.minRow ≤ m.maxRow → m.minCol ≤ m.maxCol →
        ({ m with minRow := m.minRow + 2, maxRow := m.maxRow + 2 } : MergeRange) ∈
          (apply_cells_stage_reapply cfg cells bn tpl).merges)) := by
  refine ⟨top_count_eq_two bn, by decide, top_line_2_strip_ne bn, ?_⟩
  intro cfg cells tpl
  constructor
  · exact (insert_banner_rows_spec bn (apply_cells_stage_edits cfg cells tpl)).1
  · intro m hm hr hc
    have hoff : ((top_count bn : Nat) : Int) = 2 := by
      rw [top_count_eq_two bn]
      rfl
    unfold apply_cells_stage_reapply
    rw [reapply_merges_merges, hoff]
    refine List.mem_append_right _ ?_
    rw [List.mem_filter]
    constructor
    · unfold adjust_merges_row_offset
      rw [if_neg (by decide : ¬((2 : Int) = 0))]
      exact List.mem_map.mpr ⟨m, hm, rfl⟩
    · simp only [decide_eq_true_eq]
      exact ⟨by omega, hc⟩

/-- The banner of the spec example. -/
def demoBanner : Banner :=
  { lastNightItem := some "pallet", lastNightHeavy := some "produce",
    tonightItem := some "truck", tonightHeavy := some "dairy" }

/-- A small template: a title cell, the Key Notes header at row 3, and
one merged range over rows 3-4. -/
def demoTemplate : Sheet :=
  { blankSheet 4 5 with
    cellVal := fun r c =>
      if r = 1 ∧ c = 1 then PyVal.vStr "Backstock"
      else if r = 3 ∧ c = 1 then PyVal.vStr "Key Notes/Follow Up"
      else PyVal.vNone
    merges := [⟨3, 1, 4, 2⟩] }

/-- Witness for C9: on the demo template the banner stage adds exactly
two rows and the original merge over rows 3-4 reappears over rows
5-6. -/
theorem banner_always_two_rows_witness :
    (apply_cells_stage_banner cfgOff [] demoBanner demoTemplate).maxRow =
      (apply_cells_stage_edits cfgOff [] demoTemplate).maxRow + 2 ∧
    ({ minRow := 5, minCol := 1, maxRow := 6, maxCol := 2 } : MergeRange) ∈
      (apply_cells_stage_reapply cfgOff [] demoBanner demoTemplate).merges := by
  have h := (banner_always_two_rows demoBanner).2.2.2 cfgOff [] demoTemplate
  exact ⟨h.1, h.2 ⟨3, 1, 4, 2⟩ (by decide) (by decide) (by decide)⟩

theorem normL_append (l1 l2 : List Char) : normL (l1 ++ l2) = normL l1 ++ normL l2 := by
  simp [normL, List.filter_append]

theorem normStr_top_line_1_ne :
    normStr (pyStr (PyVal.vStr top_line_1)) ≠ normStr "Key Notes/Follow Up" := by
  decide

theorem normStr_top_line_2_ne (bn : Banner) :
    normStr (pyStr (PyVal.vStr (top_line_2 bn))) ≠ normStr "Key Notes/Follow Up" := by
  intro h
  have hd : normL (top_line_2 bn).data = normL ("Key Notes/Follow Up").data := by
    have := congrArg String.data h
    simpa [pyStr, normStr] using this
  unfold top_line_2 at hd
  simp only [String.data_append, normL_append] at hd
  have e1 : normL ("Last night we took a ").data = 'l' :: ("astnightwetooka").data := by decide
  have e2 : normL ("Key Notes/Follow Up").data = 'k' :: ("eynotesfollowup").data := by decide
  rw [e1, e2] at hd
  have := congrArg List.head? hd
  simp at this

theorem find_keynotes_row_ge_three (ws : Sheet)
    (h1 : ∀ c : Int, ¬ matchesAt ws 1 c) (h2 : ∀ c : Int, ¬ matchesAt ws 2 c) :
    3 ≤ find_keynotes_row ws 41 := by
  unfold find_keynotes_row
  cases hf : (rowsList ws).find? (fun r => keynotesRowPred ws r) with
  | none =>
    show (3 : Int) ≤ 41
    norm_num
  | some r =>
    show (3 : Int) ≤ r
    have hp : keynotesRowPred ws r = true := List.find?_some hf
    have hmem : r ∈ rowsList ws := List.mem_of_find?_eq_some hf
    have hr1 : 1 ≤ r := ((mem_rowsList ws r).mp hmem).1
    obtain ⟨c, hc, hmatch⟩ := (keynotesRowPred_iff ws r).mp hp
    rcases eq_or_lt_of_le hr1 with he | hlt
    · exact absurd hmatch (he ▸ h1 c)
    · rcases eq_or_lt_of_le (by omega : (2 : Int) ≤ r) with he | hlt2
      · exact absurd hmatch (he ▸ h2 c)
      · omega

theorem reapply_merges_cellVal_low (ws : Sheet) (ms : List MergeRange) (r c : Int)
    (h : ∀ m ∈ ms, r < m.minRow) :
    (reapply_merges ws ms).cellVal r c = ws.cellVal r c := by
  induction ms generalizing ws with
  | nil => rfl
  | cons m t ih =>
    unfold reapply_merges
    rw [List.foldl_cons]
    have hrec := ih (if m.minRow ≤ m.maxRow ∧ m.minCol ≤ m.maxCol then
        mergeCellsOp ws m.minRow m.minCol m.maxRow m.maxCol else ws)
      (fun x hx => h x (List.mem_cons_of_mem m hx))
    unfold reapply_merges at hrec
    rw [hrec]
    have hm := h m (List.mem_cons_self m t)
    split
    · show (if (containsB ⟨m.minRow, m.minCol, m.maxRow, m.maxCol⟩ r c = true ∧
          ¬(r = m.minRow ∧ c = m.minCol)) then PyVal.vNone else ws.cellVal r c) = ws.cellVal r c
      rw [if_neg]
      rintro ⟨hcont, _⟩
      simp only [containsB, decide_eq_true_eq] at hcont
      omega
    · rfl

theorem applyEdit_merges (cfg : Config) (orig : List MergeRange) (ws : Sheet) (e : Edit) :
    (applyEdit cfg orig ws e).merges = ws.merges := by
  unfold applyEdit
  split
  · rfl
  · cases e.v with
    | vNone => rfl
    | vInt n => rfl
    | vFloat lit => rfl
    | vStr s =>
      simp only
      split
      · split
        · rfl
        · rfl
      · split
        · rfl
        · split
          · rfl
          · rfl

theorem applyEdits_merges (cfg : Config) (orig : List MergeRange)
    (cells : List Edit) (ws : Sheet) :
    (applyEdits cfg orig cells ws).merges = ws.merges := by
  induction cells generalizing ws with
  | nil => rfl
  | cons e t ih =>
    unfold applyEdits
    rw [List.foldl_cons]
    have := ih (applyEdit cfg orig ws e)
    unfold applyEdits at this
    rw [this, applyEdit_merges]

theorem shape_notes_exact_cellVal_low (ws : Sheet) (hdr s e r c : Int)
    (h : r < hdr + 1) :
    (shape_notes_exact ws hdr s e).cellVal r c = ws.cellVal r c := by
  unfold shape_notes_exact mergeCellsOp
  simp only
  rw [if_neg, if_neg, if_neg]
  · rintro ⟨hcont, _⟩
    simp only [containsB, decide_eq_true_eq] at hcont
    omega
  · rintro ⟨hcont, _⟩
    simp only [containsB, decide_eq_true_eq] at hcont
    omega
  · rintro ⟨hcont, _⟩
    simp only [containsB, decide_eq_true_eq] at hcont
    omega

theorem color_upstairs_black_cellVal (ws : Sheet) (endCol : Int) :
    (color_upstairs_black ws endCol).cellVal = ws.cellVal ∧
    (color_upstairs_black ws endCol).merges = ws.merges := by
  unfold color_upstairs_black
  cases find_upstairs_row ws with
  | none => exact ⟨rfl, rfl⟩
  | some up =>
    simp only
    split
    · exact ⟨rfl, rfl⟩
    · exact ⟨rfl, rfl⟩

theorem foldRows_layout (base : ℚ) (l : List Int) (w : Sheet) :
    sameLayout (l.foldl (fun x r => autosizeRowStep base x r) w) w := by
  induction l generalizing w with
  | nil => exact sameLayout_refl w
  | cons a t ih =>
    simp only [List.foldl_cons]
    exact sameLayout_trans (ih (autosizeRowStep base w a)) (autosizeRowStep_layout base w a)

theorem autosizeRows_cellVal (cfg : Config) (ws : Sheet) :
    (autosizeRows cfg ws).cellVal = ws.cellVal ∧
    (autosizeRows cfg ws).merges = ws.merges := by
  have h := foldRows_layout (uniform_row_height_pt cfg ws) (rowsList ws) ws
  exact ⟨h.2.2.1, h.2.2.2.1⟩

theorem stage_reapply_rows12 (cfg : Config) (cells : List Edit) (bn : Banner) (tpl : Sheet)
    (hwf : ∀ m ∈ tpl.merges, 1 ≤ m.minRow) :
    (apply_cells_stage_reapply cfg cells bn tpl).cellVal 1 1 = PyVal.vStr top_line_1 ∧
    (apply_cells_stage_reapply cfg cells bn tpl).cellVal 2 1 = PyVal.vStr (top_line_2 bn) ∧
    (∀ c : Int, c ≠ 1 →
      (apply_cells_stage_reapply cfg cells bn tpl).cellVal 1 c = PyVal.vNone ∧
      (apply_cells_stage_reapply cfg cells bn tpl).cellVal 2 c = PyVal.vNone) := by
  have hoff : ((top_count bn : Nat) : Int) = 2 := by
    rw [top_count_eq_two bn]
    rfl
  have hsh : ∀ m' ∈ adjust_merges_row_offset (snapshot_merges tpl) ((top_count bn : Nat) : Int),
      (2 : Int) < m'.minRow := by
    intro m' hm'
    rw [hoff] at hm'
    unfold adjust_merges_row_offset at hm'
    rw [if_neg (by decide : ¬((2 : Int) = 0))] at hm'
    obtain ⟨m, hm, hEq⟩ := List.mem_map.mp hm'
    have hge := hwf m hm
    subst hEq
    show (2 : Int) < m.minRow + 2
    omega
  have hlow : ∀ r c : Int, r ≤ 2 →
      (apply_cells_stage_reapply cfg cells bn tpl).cellVal r c =
      (apply_cells_stage_banner cfg cells bn tpl).cellVal r c := by
    intro r c hr
    unfold apply_cells_stage_reapply
    exact reapply_merges_cellVal_low _ _ r c (fun m hm => by have := hsh m hm; omega)
  have hspec := insert_banner_rows_spec bn (apply_cells_stage_edits cfg cells tpl)
  refine ⟨?_, ?_, ?_⟩
  · rw [hlow 1 1 (by norm_num)]
    exact hspec.2.2.1
  · rw [hlow 2 1 (by norm_num)]
    exact hspec.2.2.2.1
  · intro c hc
    exact ⟨(hlow 1 c (by norm_num)).trans ((hspec.2.2.2.2 c hc).1),
           (hlow 2 c (by norm_num)).trans ((hspec.2.2.2.2 c hc).2)⟩

theorem hdr_row_ge_three (cfg : Config) (cells : List Edit) (bn : Banner) (tpl : Sheet)
    (hwf : ∀ m ∈ tpl.merges, 1 ≤ m.minRow) :
    3 ≤ apply_cells_hdr_row cfg cells bn tpl := by
  obtain ⟨hv1, hv2, hother⟩ := stage_reapply_rows12 cfg cells bn tpl hwf
  unfold apply_cells_hdr_row
  apply find_keynotes_row_ge_three
  · intro c hmatch
    obtain ⟨hne, heq⟩ := hmatch
    rcases eq_or_ne c 1 with rfl | hc
    · rw [hv1] at heq
      exact normStr_top_line_1_ne heq
    · rw [(hother c hc).1] at hne
      exact hne rfl
  · intro c hmatch
    obtain ⟨hne, heq⟩ := hmatch
    rcases eq_or_ne c 1 with rfl | hc
    · rw [hv2] at heq
      exact normStr_top_line_2_ne bn heq
    · rw [(hother c hc).2] at hne
      exact hne rfl

theorem stage_notes_cellVal_low (cfg : Config) (cells : List Edit) (bn : Banner)
    (tpl : Sheet) (hwf : ∀ m ∈ tpl.merges, 1 ≤ m.minRow) (r c : Int) (hr : r ≤ 2) :
    (apply_cells_stage_notes cfg cells bn tpl).cellVal r c =
      (apply_cells_stage_reapply cfg cells bn tpl).cellVal r c := by
  have hhdr : 3 ≤ find_keynotes_row (apply_cells_stage_reapply cfg cells bn tpl) 41 :=
    hdr_row_ge_three cfg cells bn tpl hwf
  unfold apply_cells_stage_notes
  simp only [setCellAlign, setCellValue]
  rw [if_neg (by rintro ⟨h1, h2⟩; omega), if_neg (by rintro ⟨h1, h2⟩; omega),
    if_neg (by rintro ⟨h1, h2⟩; omega)]
  exact shape_notes_exact_cellVal_low _ _ _ _ _ _ (by omega)

theorem stage_notes_merges_eq (cfg : Config) (cells : List Edit) (bn : Banner)
    (tpl : Sheet) :
    (apply_cells_stage_notes cfg cells bn tpl).merges =
      (shape_notes_exact (apply_cells_stage_reapply cfg cells bn tpl)
        (find_keynotes_row (apply_cells_stage_reapply cfg cells bn tpl) 41) 1 5).merges := rfl

/-- C1: on every export the banner stage inserts `top_count` rows at
row 1 — one per non-empty top sentence, always two — and in the final
workbook row 1 holds "Good morning team.", row 2 holds the templated
"Last night ..." sentence, each banner row still merged across columns
1..max(last used column, 5); in particular, for the banner
{pallet, produce, truck, dairy} with no notes override, row 1 and row 2
of the demo export read the two top sentences and the two single-row
Notes sub-blocks (header row + 5 and + 6) hold the "Tonight ..." and
"Please let me know ..." sentences. -/
theorem export_banner_and_notes_spec :
    (∀ (cfg : Config) (cells : List Edit) (bn : Banner) (tpl : Sheet),
      (∀ m ∈ tpl.merges, 1 ≤ m.minRow) →
      ((apply_cells_stage_banner cfg cells bn tpl).maxRow =
          (apply_cells_stage_edits cfg cells tpl).maxRow + top_count bn ∧
        (apply_cells_and_export cfg cells bn tpl).cellVal 1 1 = PyVal.vStr top_line_1 ∧
        (apply_cells_and_export cfg cells bn tpl).cellVal 2 1 =
          PyVal.vStr (top_line_2 bn) ∧
        (⟨1, 1, 1, max (last_used_bounds
            (insertRowsTop 2 (apply_cells_stage_edits cfg cells tpl))).2 5⟩ : MergeRange)
          ∈ (apply_cells_and_export cfg cells bn tpl).merges ∧
        (⟨2, 1, 2, max (last_used_bounds
            (insertRowsTop 2 (apply_cells_stage_edits cfg cells tpl))).2 5⟩ : MergeRange)
          ∈ (apply_cells_and_export cfg cells bn tpl).merges)) ∧
    (apply_cells_and_export cfgOff [] demoBanner demoTemplate).cellVal 1 1 =
        PyVal.vStr "Good morning team." ∧
    (apply_cells_and_export cfgOff [] demoBanner demoTemplate).cellVal 2 1 =
        PyVal.vStr "Last night we took a pallet, it was heavy in produce." ∧
    (apply_cells_and_export cfgOff [] demoBanner demoTemplate).cellVal
        (apply_cells_hdr_row cfgOff [] demoBanner demoTemplate + 5) 1 =
        PyVal.vStr "Tonight we will be taking a truck, it will be heavy in dairy." ∧
    (apply_cells_and_export cfgOff [] demoBanner demoTemplate).cellVal
        (apply_cells_hdr_row cfgOff [] demoBanner demoTemplate + 6) 1 =
        PyVal.vStr "Please let me know if you have any questions. Thank you." := by
  have hfin : ∀ (cfg : Config) (cells : List Edit) (bn : Banner) (tpl : Sheet),
      (apply_cells_and_export cfg cells bn tpl).cellVal =
      (apply_cells_stage_notes cfg cells bn tpl).cellVal := by
    intro cfg cells bn tpl
    unfold apply_cells_and_export
    rw [(autosizeRows_cellVal cfg _).1, (color_upstairs_black_cellVal _ 5).1]
  constructor
  · intro cfg cells bn tpl hwf
    have hspec := insert_banner_rows_spec bn (apply_cells_stage_edits cfg cells tpl)
    have hhdr : 3 ≤ find_keynotes_row (apply_cells_stage_reapply cfg cells bn tpl) 41 :=
      hdr_row_ge_three cfg cells bn tpl hwf
    obtain ⟨hv1, hv2, hother⟩ := stage_reapply_rows12 cfg cells bn tpl hwf
    have hmerfin : (apply_cells_and_export cfg cells bn tpl).merges =
        (apply_cells_stage_notes cfg cells bn tpl).merges := by
      unfold apply_cells_and_export
      rw [(autosizeRows_cellVal cfg _).2, (color_upstairs_black_cellVal _ 5).2]
    have hws2m : (apply_cells_stage_edits cfg cells tpl).merges = [] := by
      unfold apply_cells_stage_edits
      rw [applyEdits_merges]
      rfl
    have hbm : ∀ bm : MergeRange, bm ∈
        [(⟨1, 1, 1, max (last_used_bounds
            (insertRowsTop 2 (apply_cells_stage_edits cfg cells tpl))).2 5⟩ : MergeRange),
         ⟨2, 1, 2, max (last_used_bounds
            (insertRowsTop 2 (apply_cells_stage_edits cfg cells tpl))).2 5⟩] →
        bm.maxRow ≤ 2 →
        bm ∈ (apply_cells_and_export cfg cells bn tpl).merges := by
      intro bm hbmmem hbmrow
      rw [hmerfin, stage_notes_merges_eq, shape_notes_exact_merges_eq]
      refine List.mem_append_left _ ?_
      refine List.mem_filter.mpr ⟨?_, ?_⟩
      · unfold apply_cells_stage_reapply
        rw [reapply_merges_merges]
        refine List.mem_append_left _ ?_
        unfold apply_cells_stage_banner
        rw [hspec.2.1, hws2m]
        simpa using hbmmem
      · simp only [overlapsRows, Bool.not_eq_true', decide_eq_false_iff_not]
        rintro ⟨_, h2⟩
        omega
    refine ⟨?_, ?_, ?_, ?_, ?_⟩
    · rw [top_count_eq_two bn]
      exact hspec.1
    · rw [hfin cfg cells bn tpl,
        stage_notes_cellVal_low cfg cells bn tpl hwf 1 1 (by norm_num)]
      exact hv1
    · rw [hfin cfg cells bn tpl,
        stage_notes_cellVal_low cfg cells bn tpl hwf 2 1 (by norm_num)]
      exact hv2
    · exact hbm _ (by simp) (by norm_num)
    · exact hbm _ (by simp) (by norm_num)
  · refine ⟨?_, ?_, ?_, ?_⟩ <;>
      rw [hfin cfgOff [] demoBanner demoTemplate] <;> decide

/-- Witness for C1: the universal part applied at the demo template
(whose merges are well-formed), giving the inserted-row count equation
and the row-1 banner text of the final export. -/
theorem export_banner_and_notes_spec_witness :
    (apply_cells_stage_banner cfgOff [] demoBanner demoTemplate).maxRow =
      (apply_cells_stage_edits cfgOff [] demoTemplate).maxRow + top_count demoBanner ∧
    (apply_cells_and_export cfgOff [] demoBanner demoTemplate).cellVal 1 1 =
      PyVal.vStr top_line_1 := by
  have h := export_banner_and_notes_spec.1 cfgOff [] demoBanner demoTemplate (by decide)
  exact ⟨h.1, h.2.1⟩
